import Mathlib

/-!
Verification of the flutter_merge layer-compositing core against its
natural-language specification.

The development shallowly embeds three parts of the source tree:

* `Flutter` — the display-list matrix/clip tracker
  (`display_list/utils/dl_matrix_clip_tracker.cc`): cull-rect coverage
  adjustment for intersect/difference clips and the covers-cull
  predicates for rect/oval/round-rect shapes.
* `Impeller` — the `Canvas` compositor
  (`impeller/display_list/canvas.cc`): the save/restore frame stack,
  the shared depth counter, the save-layer paths (skip, opacity
  peephole, full subpass, backdrop flip) and entity dispatch.
* `ReactorGLES` — the GL backend operation queue
  (`impeller/renderer/backend/gles/reactor_gles.cc`).

Scalars are modelled as `ℚ` (the float arithmetic of the source is
exact on the inputs considered); machine-size integers as `Nat`.
External collaborators (GPU render passes, textures, geometry
tessellation) are abstracted to the operations and success results the
embedded code consumes, as the spec directs (its section 2 lists them
as collaborators outside the core).
-/

namespace Flutter

/-- A device- or local-space point with rational coordinates,
modelling `DlPoint` (`impeller::Point`). -/
structure PointQ where
  x : ℚ
  y : ℚ
deriving DecidableEq, Repr

/-- An axis-aligned rectangle given by its edges, modelling `DlRect`
(`impeller::Rect`, stored as left/top/right/bottom). -/
structure RectQ where
  left : ℚ
  top : ℚ
  right : ℚ
  bottom : ℚ
deriving DecidableEq, Repr

/-- A width/height pair, modelling `DlSize`. -/
structure SizeQ where
  width : ℚ
  height : ℚ
deriving DecidableEq, Repr

namespace RectQ

/-- The default-constructed `DlRect()`: all edges zero. -/
def zero : RectQ := ⟨0, 0, 0, 0⟩

/-- Modelled from the impeller geometry library (`TRect::IsEmpty`,
`impeller/geometry/rect.h` is not under src/): a rect is empty unless
both extents are strictly positive. -/
def isEmpty (r : RectQ) : Bool :=
  !(decide (r.left < r.right) && decide (r.top < r.bottom))

/-- Over `ℚ` every value is finite, so `DlRect::IsFinite` always
holds; kept so that callers mirror the source control flow. -/
def isFinite (_r : RectQ) : Bool := true

/-- Modelled from the impeller geometry library (`TRect::Intersection`):
edgewise max/min, `none` when the result is empty. -/
def intersection (a b : RectQ) : Option RectQ :=
  let r : RectQ := ⟨max a.left b.left, max a.top b.top,
                    min a.right b.right, min a.bottom b.bottom⟩
  if r.isEmpty then none else some r

/-- Modelled from the impeller geometry library
(`TRect::IntersectsWithRect`). -/
def intersectsWithRect (a b : RectQ) : Bool :=
  (a.intersection b).isSome

/-- Modelled from the impeller geometry library (`TRect::RoundOut`):
floor the left/top edge and ceil the right/bottom edge. -/
def roundOut (r : RectQ) : RectQ :=
  ⟨(⌊r.left⌋ : ℤ), (⌊r.top⌋ : ℤ), (⌈r.right⌉ : ℤ), (⌈r.bottom⌉ : ℤ)⟩

/-- Rounding to the nearest integer with halves away from zero, the
behaviour of the `std::round` family used by `TRect::Round`. -/
def roundScalar (q : ℚ) : ℤ :=
  if 0 ≤ q then ⌊q + 1/2⌋ else -⌊-q + 1/2⌋

/-- Modelled from the impeller geometry library (`TRect::Round`): each
edge rounded to the nearest integer. -/
def round (r : RectQ) : RectQ :=
  ⟨roundScalar r.left, roundScalar r.top, roundScalar r.right, roundScalar r.bottom⟩

/-- Modelled from the impeller geometry library (`TRect::Contains` on a
point): left/top inclusive, right/bottom exclusive. -/
def containsPoint (r : RectQ) (p : PointQ) : Bool :=
  decide (p.x ≥ r.left) && decide (p.x < r.right) &&
  decide (p.y ≥ r.top) && decide (p.y < r.bottom)

/-- Modelled from the impeller geometry library
(`TRect::ContainsInclusive` on a point): all edges inclusive. -/
def containsInclusive (r : RectQ) (p : PointQ) : Bool :=
  decide (p.x ≥ r.left) && decide (p.x ≤ r.right) &&
  decide (p.y ≥ r.top) && decide (p.y ≤ r.bottom)

/-- Modelled from the impeller geometry library (`TRect::Contains` on a
rect): the other rect is non-empty and lies within all four edges. -/
def containsRect (a b : RectQ) : Bool :=
  !b.isEmpty && decide (a.left ≤ b.left) && decide (a.top ≤ b.top) &&
  decide (a.right ≥ b.right) && decide (a.bottom ≥ b.bottom)

/-- Modelled from the impeller geometry library (`TRect::Expand` with
four deltas): moves each edge outward by the given amount. -/
def expand (r : RectQ) (l t rt b : ℚ) : RectQ :=
  ⟨r.left - l, r.top - t, r.right + rt, r.bottom + b⟩

/-- Modelled from the impeller geometry library (`TRect::GetCenter`). -/
def getCenter (r : RectQ) : PointQ :=
  ⟨(r.left + r.right) / 2, (r.top + r.bottom) / 2⟩

/-- Modelled from the impeller geometry library (`TRect::Cutout`):
removes `b` from `a` when the remainder is still a rectangle; `none`
when `b` covers `a` entirely; `a` unchanged when the cut is not
expressible as a rectangle. -/
def cutout (a b : RectQ) : Option RectQ :=
  if b.left ≤ a.left ∧ b.right ≥ a.right then
    if b.top ≤ a.top ∧ b.bottom ≥ a.bottom then
      none
    else if b.top ≤ a.top ∧ b.bottom > a.top then
      some ⟨a.left, b.bottom, a.right, a.bottom⟩
    else if b.bottom ≥ a.bottom ∧ b.top < a.bottom then
      some ⟨a.left, a.top, a.right, b.top⟩
    else
      cutoutVertical a b
  else
    cutoutVertical a b
where
  /-- The vertical-spanning arm of `TRect::Cutout`. -/
  cutoutVertical (a b : RectQ) : Option RectQ :=
    if b.top ≤ a.top ∧ b.bottom ≥ a.bottom then
      if b.left ≤ a.left ∧ b.right > a.left then
        some ⟨b.right, a.top, a.right, a.bottom⟩
      else if b.right ≥ a.right ∧ b.left < a.right then
        some ⟨a.left, a.top, b.left, a.bottom⟩
      else
        some a
    else
      some a

/-- Modelled from the impeller geometry library (`TRect::CutoutOrEmpty`). -/
def cutoutOrEmpty (a b : RectQ) : RectQ :=
  (a.cutout b).getD RectQ.zero

/-- Point-set semantics of a rect (left/top inclusive, right/bottom
exclusive): used to state coverage-monotonicity. -/
def toSet (r : RectQ) : Set (ℚ × ℚ) :=
  { p | r.left ≤ p.1 ∧ p.1 < r.right ∧ r.top ≤ p.2 ∧ p.2 < r.bottom }

end RectQ

/-- Modelled from the Skia round-rect interface (`SkRRect`, not under
src/): an outer bounds rect together with per-corner x/y radii. -/
structure RRectQ where
  bounds : RectQ
  upperLeft : SizeQ
  upperRight : SizeQ
  lowerLeft : SizeQ
  lowerRight : SizeQ
deriving DecidableEq, Repr

namespace RRectQ

/-- Modelled from `SkRRect::isEmpty`. -/
def isEmpty (r : RRectQ) : Bool := r.bounds.isEmpty

/-- Modelled from `SkRRect::isRect`: non-empty bounds with all radii
zero. -/
def isRect (r : RRectQ) : Bool :=
  !r.isEmpty && decide (r.upperLeft = ⟨0, 0⟩) && decide (r.upperRight = ⟨0, 0⟩) &&
  decide (r.lowerLeft = ⟨0, 0⟩) && decide (r.lowerRight = ⟨0, 0⟩)

/-- Modelled from `SkRRect::isOval`: all radii equal to half the
bounds extents (and not a rect). -/
def isOval (r : RRectQ) : Bool :=
  let hw := (r.bounds.right - r.bounds.left) / 2
  let hh := (r.bounds.bottom - r.bounds.top) / 2
  !r.isEmpty && !r.isRect &&
  decide (r.upperLeft = ⟨hw, hh⟩) && decide (r.upperRight = ⟨hw, hh⟩) &&
  decide (r.lowerLeft = ⟨hw, hh⟩) && decide (r.lowerRight = ⟨hw, hh⟩)

/-- Modelled from `SkRRect::isSimple` as used after the rect and oval
cases are excluded: all four corner radii equal. -/
def isSimple (r : RRectQ) : Bool :=
  !r.isEmpty && decide (r.upperLeft = r.upperRight) &&
  decide (r.upperLeft = r.lowerLeft) && decide (r.upperLeft = r.lowerRight)

/-- Modelled from `SkRRect::getSimpleRadii`. -/
def getSimpleRadii (r : RRectQ) : SizeQ := r.upperLeft

end RRectQ

/-- The 4×4 matrix collaborator of the tracker, modelled by the
operations `dl_matrix_clip_tracker.cc` consumes from the geometry
library (which is not under src/): the perspective and axis-alignment
queries, invertibility, the bounds transform used by `mapRect`, and
application of the inverse to a point (used by `getLocalCullCorners`). -/
structure DlMatrixM where
  hasPerspective : Bool
  isAligned2D : Bool
  invertible : Bool
  transformAndClipBounds : RectQ → RectQ
  applyInverse : PointQ → PointQ

/-- The identity matrix, as the model sees it. -/
def DlMatrixM.identity : DlMatrixM :=
  { hasPerspective := false
    isAligned2D := true
    invertible := true
    transformAndClipBounds := fun r => r
    applyInverse := fun p => p }

/-- Clip operations of `DlCanvas::ClipOp`. -/
inductive ClipOp where
  | intersect
  | difference
deriving DecidableEq, Repr

/-- The tracker state: the running device-space cull rect and the
current transform (`DisplayListMatrixClipState`). -/
structure DisplayListMatrixClipState where
  cull_rect : RectQ
  matrix : DlMatrixM

namespace DisplayListMatrixClipState

/-- Source `mapRect`: transform the rect into device space and report
whether the transform maps rects to rects. -/
def mapRect (s : DisplayListMatrixClipState) (src : RectQ) : RectQ × Bool :=
  (s.matrix.transformAndClipBounds src, s.matrix.isAligned2D)

/-- Source `getLocalCullCorners`: the four cull-rect corners mapped to
local space by the inverse transform; fails when the matrix is not
invertible. Corner order: left-top, right-top, right-bottom,
left-bottom. -/
def getLocalCullCorners (s : DisplayListMatrixClipState) :
    Option (PointQ × PointQ × PointQ × PointQ) :=
  if s.matrix.invertible then
    some (s.matrix.applyInverse ⟨s.cull_rect.left, s.cull_rect.top⟩,
          s.matrix.applyInverse ⟨s.cull_rect.right, s.cull_rect.top⟩,
          s.matrix.applyInverse ⟨s.cull_rect.right, s.cull_rect.bottom⟩,
          s.matrix.applyInverse ⟨s.cull_rect.left, s.cull_rect.bottom⟩)
  else
    none

/-- Source `adjustCullRect`: the coverage-adjustment step for a clip.
No-op when coverage is already empty or the transform has perspective;
intersect clips shrink coverage to the intersection with the mapped
(and, under antialiasing, rounded-out) clip rect; difference clips cut
a rect out when the transform is rect-to-rect. -/
def adjustCullRect (s : DisplayListMatrixClipState) (clip : RectQ)
    (op : ClipOp) (is_aa : Bool) : DisplayListMatrixClipState :=
  if s.cull_rect.isEmpty then
    -- No point in constraining further.
    s
  else if s.matrix.hasPerspective then
    -- We can conservatively ignore this clip.
    s
  else
    match op with
    | .intersect =>
      if clip.isEmpty then
        { s with cull_rect := RectQ.zero }
      else
        let rect := (s.mapRect clip).1
        let rect := if is_aa then rect.roundOut else rect
        { s with cull_rect := (s.cull_rect.intersection rect).getD RectQ.zero }
    | .difference =>
      if clip.isEmpty then
        s
      else
        let (rect, ok) := s.mapRect clip
        if ok then
          -- This technique only works if the transform is rect -> rect.
          if is_aa then
            let rect := rect.round
            if rect.isEmpty then s
            else { s with cull_rect := s.cull_rect.cutoutOrEmpty rect }
          else
            { s with cull_rect := s.cull_rect.cutoutOrEmpty rect }
        else
          s

/-- Source `clipRect`: guard against non-finite rects, then adjust. -/
def clipRect (s : DisplayListMatrixClipState) (rect : RectQ)
    (op : ClipOp) (is_aa : Bool) : DisplayListMatrixClipState :=
  if rect.isFinite then s.adjustCullRect rect op is_aa else s

/-- Source `rect_covers_cull`: does the (local-space) content rect
cover every pixel of the current cull rect. -/
def rect_covers_cull (s : DisplayListMatrixClipState) (content : RectQ) : Bool :=
  if content.isEmpty then false
  else if s.cull_rect.isEmpty then true
  else if s.matrix.isAligned2D then
    (s.matrix.transformAndClipBounds content).containsRect s.cull_rect
  else
    match s.getLocalCullCorners with
    | none => false
    | some (c0, c1, c2, c3) =>
      content.containsInclusive c0 && content.containsInclusive c1 &&
      content.containsInclusive c2 && content.containsInclusive c3

/-- The loop body of `oval_covers_cull`: the corner is inside the
bounds rect and strictly inside the inscribed ellipse (the source
rejects a corner when its scaled squared distance from the center is
`>= 1`). -/
def ovalInside (bounds : RectQ) (c : PointQ) : Bool :=
  let center := bounds.getCenter
  let sx := 2 / (bounds.right - bounds.left)
  let sy := 2 / (bounds.bottom - bounds.top)
  bounds.containsPoint c &&
  decide (((c.x - center.x) * sx) ^ 2 + ((c.y - center.y) * sy) ^ 2 < 1)

/-- Source `oval_covers_cull`: all four local cull corners lie strictly
inside the ellipse inscribed in `bounds`. -/
def oval_covers_cull (s : DisplayListMatrixClipState) (bounds : RectQ) : Bool :=
  if bounds.isEmpty then false
  else if s.cull_rect.isEmpty then true
  else
    match s.getLocalCullCorners with
    | none => false
    | some (c0, c1, c2, c3) =>
      ovalInside bounds c0 && ovalInside bounds c1 &&
      ovalInside bounds c2 && ovalInside bounds c3

/-- The loop body of `rrect_covers_cull` for a simple round rect: the
corner is inside the outer bounds, and when it falls in a corner
ellipse region its scaled squared distance stays below one. -/
def rrectInside (content : RRectQ) (c : PointQ) : Bool :=
  let outer := content.bounds
  let x_center := (outer.left + outer.right) / 2
  let y_center := (outer.top + outer.bottom) / 2
  let radii := content.getSimpleRadii
  let inner_x := (outer.right - outer.left) / 2 - radii.width
  let inner_y := (outer.bottom - outer.top) / 2 - radii.height
  let scale_x := 1 / radii.width
  let scale_y := 1 / radii.height
  outer.containsPoint c &&
  (let x_rel := |c.x - x_center| - inner_x
   let y_rel := |c.y - y_center| - inner_y
   !(decide (x_rel > 0) && decide (y_rel > 0) &&
     decide ((x_rel * scale_x) ^ 2 + (y_rel * scale_y) ^ 2 ≥ 1)))

/-- Source `rrect_covers_cull`: cover test for a simple round rect,
delegating to the rect/oval tests for degenerate shapes. -/
def rrect_covers_cull (s : DisplayListMatrixClipState) (content : RRectQ) : Bool :=
  if content.isEmpty then false
  else if s.cull_rect.isEmpty then true
  else if content.isRect then s.rect_covers_cull content.bounds
  else if content.isOval then s.oval_covers_cull content.bounds
  else if !content.isSimple then false
  else
    match s.getLocalCullCorners with
    | none => false
    | some (c0, c1, c2, c3) =>
      rrectInside content c0 && rrectInside content c1 &&
      rrectInside content c2 && rrectInside content c3

/-- Source `clipOval`: intersect ovals adjust by their bounds;
difference ovals only apply the covers-cull fast path. -/
def clipOval (s : DisplayListMatrixClipState) (bounds : RectQ)
    (op : ClipOp) (is_aa : Bool) : DisplayListMatrixClipState :=
  if !bounds.isFinite then s
  else
    match op with
    | .intersect => s.adjustCullRect bounds op is_aa
    | .difference =>
      if s.oval_covers_cull bounds then { s with cull_rect := RectQ.zero }
      else s

/-- Source `clipRRect`: rect-shaped round rects delegate to `clipRect`;
difference round rects apply the covers-cull fast path, then cut the
two straight-edged safe rects out of coverage. -/
def clipRRect (s : DisplayListMatrixClipState) (rrect : RRectQ)
    (op : ClipOp) (is_aa : Bool) : DisplayListMatrixClipState :=
  let bounds := rrect.bounds
  if rrect.isRect then s.clipRect bounds op is_aa
  else
    match op with
    | .intersect => s.adjustCullRect bounds op is_aa
    | .difference =>
      if s.rrect_covers_cull rrect then { s with cull_rect := RectQ.zero }
      else
        let safe1 := bounds.expand
          (-(max rrect.upperLeft.width rrect.lowerLeft.width)) 0
          (-(max rrect.upperRight.width rrect.lowerRight.width)) 0
        let s1 := s.adjustCullRect safe1 op is_aa
        let safe2 := bounds.expand
          0 (-(max rrect.upperLeft.height rrect.upperRight.height))
          0 (-(max rrect.lowerLeft.height rrect.lowerRight.height))
        s1.adjustCullRect safe2 op is_aa

/-- Source `content_culled`: a draw whose bounds cannot intersect the
cull rect is culled; conservative under perspective. -/
def content_culled (s : DisplayListMatrixClipState) (content_bounds : RectQ) : Bool :=
  if s.cull_rect.isEmpty || content_bounds.isEmpty then true
  else if !s.matrix.invertible then true
  else if s.matrix.hasPerspective then false
  else
    let mapped := (s.mapRect content_bounds).1
    !(mapped.intersectsWithRect s.cull_rect)

end DisplayListMatrixClipState

end Flutter

namespace Flutter

/-- The empty rect has empty point-set semantics. -/
lemma RectQ.toSet_zero : RectQ.toSet RectQ.zero = ∅ := by
  ext p
  simp only [RectQ.toSet, RectQ.zero, Set.mem_setOf_eq, Set.mem_empty_iff_false, iff_false]
  rintro ⟨h1, h2, -, -⟩
  exact absurd (lt_of_le_of_lt h1 h2) (lt_irrefl 0)

/-- A rect is non-empty exactly when both extents are positive. -/
lemma RectQ.isEmpty_eq_false_iff (r : RectQ) :
    r.isEmpty = false ↔ r.left < r.right ∧ r.top < r.bottom := by
  simp [RectQ.isEmpty]

/-- The (defaulted) intersection used by `adjustCullRect` never grows
the left operand. -/
lemma RectQ.intersection_getD_subset (a b : RectQ) :
    RectQ.toSet ((a.intersection b).getD RectQ.zero) ⊆ RectQ.toSet a := by
  unfold RectQ.intersection
  by_cases h :
      (⟨max a.left b.left, max a.top b.top, min a.right b.right, min a.bottom b.bottom⟩ :
        RectQ).isEmpty
  · simp only [h, if_true, Option.getD_none]
    rw [RectQ.toSet_zero]
    exact Set.empty_subset _
  · simp only [h, if_false, Option.getD_some]
    intro p hp
    obtain ⟨h1, h2, h3, h4⟩ := hp
    exact ⟨le_trans (le_max_left _ _) h1, lt_of_lt_of_le h2 (min_le_left _ _),
           le_trans (le_max_left _ _) h3, lt_of_lt_of_le h4 (min_le_left _ _)⟩

end Flutter

namespace Flutter.DisplayListMatrixClipState

/-- C5: Coverage is monotonic non-increasing under intersect clips: for
every starting cull rect, transform, clip rect, and antialias flag, the
cull rect after `adjustCullRect` with the intersect operation is
contained in the cull rect before the call. -/
theorem adjustCullRect_intersect_monotone
    (s : DisplayListMatrixClipState) (clip : RectQ) (is_aa : Bool) :
    RectQ.toSet (s.adjustCullRect clip .intersect is_aa).cull_rect ⊆
      RectQ.toSet s.cull_rect := by
  unfold adjustCullRect
  by_cases hemp : s.cull_rect.isEmpty
  · simp [hemp]
  · by_cases hp : s.matrix.hasPerspective
    · simp [hemp, hp]
    · by_cases hc : clip.isEmpty
      · simp only [hemp, hp, hc, if_false, if_true, Bool.false_eq_true]
        rw [RectQ.toSet_zero]
        exact Set.empty_subset _
      · simp only [hemp, hp, hc, if_false, Bool.false_eq_true]
        exact RectQ.intersection_getD_subset _ _

/-- C6: `adjustCullRect` leaves the tracker state unchanged whenever
the cull rect is already empty or the current transform has
perspective, for both clip operations and regardless of the clip
rectangle and the antialias flag. -/
theorem adjustCullRect_noop_of_empty_or_perspective
    (s : DisplayListMatrixClipState) (clip : RectQ) (op : ClipOp) (is_aa : Bool)
    (h : s.cull_rect.isEmpty = true ∨ s.matrix.hasPerspective = true) :
    s.adjustCullRect clip op is_aa = s := by
  unfold adjustCullRect
  rcases h with h | h
  · simp [h]
  · by_cases he : s.cull_rect.isEmpty <;> simp [he, h]

/-- Witness for C6 at a concrete input: an already-empty cull rect is
untouched by a difference clip. -/
theorem adjustCullRect_noop_witness :
    adjustCullRect ⟨RectQ.zero, DlMatrixM.identity⟩ ⟨0, 0, 5, 5⟩ .difference true =
      ⟨RectQ.zero, DlMatrixM.identity⟩ :=
  adjustCullRect_noop_of_empty_or_perspective _ _ _ _ (Or.inl (by decide))

/-- C4: a difference clip whose shape fully covers the current coverage
empties the coverage, and an empty coverage culls all subsequent draws.
Part one: a rect clip whose device-space cutout rectangle (mapped, and
rounded when antialiased, exactly as the code computes it) contains the
coverage, under a perspective-free rect-to-rect transform. Part two: an
oval clip when the four coverage corners, mapped to local space by the
inverse transform, lie inside the oval. Part three: a (simple,
non-degenerate) round-rect clip when those corners lie inside the round
rect. Part four: draws are culled once coverage is empty. -/
theorem difference_clip_covering_coverage_empties_it :
    (∀ (s : DisplayListMatrixClipState) (clip : RectQ) (is_aa : Bool),
      s.matrix.hasPerspective = false →
      s.matrix.isAligned2D = true →
      clip.isEmpty = false →
      (let r0 := s.matrix.transformAndClipBounds clip
       let r := if is_aa then r0.round else r0
       r.left ≤ s.cull_rect.left ∧ r.top ≤ s.cull_rect.top ∧
         s.cull_rect.right ≤ r.right ∧ s.cull_rect.bottom ≤ r.bottom) →
      (s.clipRect clip .difference is_aa).cull_rect.isEmpty = true) ∧
    (∀ (s : DisplayListMatrixClipState) (bounds : RectQ) (is_aa : Bool),
      bounds.isEmpty = false →
      s.matrix.invertible = true →
      (∀ cx cy : ℚ,
        (cx = s.cull_rect.left ∨ cx = s.cull_rect.right) →
        (cy = s.cull_rect.top ∨ cy = s.cull_rect.bottom) →
        ovalInside bounds (s.matrix.applyInverse ⟨cx, cy⟩) = true) →
      (s.clipOval bounds .difference is_aa).cull_rect.isEmpty = true) ∧
    (∀ (s : DisplayListMatrixClipState) (rrect : RRectQ) (is_aa : Bool),
      rrect.isRect = false →
      rrect.isOval = false →
      rrect.isSimple = true →
      s.matrix.invertible = true →
      (∀ cx cy : ℚ,
        (cx = s.cull_rect.left ∨ cx = s.cull_rect.right) →
        (cy = s.cull_rect.top ∨ cy = s.cull_rect.bottom) →
        rrectInside rrect (s.matrix.applyInverse ⟨cx, cy⟩) = true) →
      (s.clipRRect rrect .difference is_aa).cull_rect.isEmpty = true) ∧
    (∀ (s : DisplayListMatrixClipState) (content_bounds : RectQ),
      s.cull_rect.isEmpty = true → s.content_culled content_bounds = true) := by
  refine ⟨?_, ?_, ?_, ?_⟩
  · intro s clip is_aa hp hal hc hcontain
    obtain ⟨hL, hT, hR, hB⟩ := hcontain
    have hcut : ∀ r : RectQ, r.left ≤ s.cull_rect.left → r.top ≤ s.cull_rect.top →
        s.cull_rect.right ≤ r.right → s.cull_rect.bottom ≤ r.bottom →
        s.cull_rect.cutoutOrEmpty r = RectQ.zero := by
      intro r h1 h2 h3 h4
      unfold RectQ.cutoutOrEmpty RectQ.cutout
      rw [if_pos (And.intro h1 h3), if_pos (And.intro h2 h4)]
      rfl
    unfold clipRect adjustCullRect
    by_cases hemp : s.cull_rect.isEmpty = true
    · simp [RectQ.isFinite, hemp]
    · have hempf : s.cull_rect.isEmpty = false := by
        cases hb : s.cull_rect.isEmpty
        · rfl
        · exact absurd hb hemp
      obtain ⟨hx, hy⟩ := (RectQ.isEmpty_eq_false_iff _).mp hempf
      cases is_aa
      · -- no antialiasing: cut out the mapped rect directly
        simp only [Bool.false_eq_true, if_false] at hL hT hR hB
        simp [RectQ.isFinite, hempf, hp, hc, mapRect, hal, hcut _ hL hT hR hB]
        decide
      · -- antialiasing: the rounded rect still contains the coverage
        simp only [if_true] at hL hT hR hB
        have hne : ((s.matrix.transformAndClipBounds clip).round).isEmpty = false := by
          rw [RectQ.isEmpty_eq_false_iff]
          exact ⟨lt_of_le_of_lt hL (lt_of_lt_of_le hx hR),
                 lt_of_le_of_lt hT (lt_of_lt_of_le hy hB)⟩
        simp [RectQ.isFinite, hempf, hp, hc, mapRect, hal, hne, hcut _ hL hT hR hB]
        decide
  · intro s bounds is_aa hb hinv hcorners
    unfold clipOval
    simp only [RectQ.isFinite, Bool.not_true, if_false, Bool.false_eq_true]
    have hcov : s.oval_covers_cull bounds = true := by
      unfold oval_covers_cull getLocalCullCorners
      simp only [hb, if_false, hinv, if_true, Bool.false_eq_true]
      by_cases hemp : s.cull_rect.isEmpty
      · simp [hemp]
      · simp only [hemp, if_false, Bool.false_eq_true]
        rw [hcorners _ _ (Or.inl rfl) (Or.inl rfl),
            hcorners _ _ (Or.inr rfl) (Or.inl rfl),
            hcorners _ _ (Or.inr rfl) (Or.inr rfl),
            hcorners _ _ (Or.inl rfl) (Or.inr rfl)]
        rfl
    simp [hcov]
    decide
  · intro s rrect is_aa hrect hoval hsimple hinv hcorners
    unfold clipRRect
    simp only [hrect, if_false, Bool.false_eq_true]
    have hcov : s.rrect_covers_cull rrect = true := by
      unfold rrect_covers_cull getLocalCullCorners
      have hbe : rrect.isEmpty = false := by
        unfold RRectQ.isSimple at hsimple
        cases hb : rrect.isEmpty
        · rfl
        · rw [hb] at hsimple; simp at hsimple
      simp only [hbe, hrect, hoval, hsimple, Bool.not_true, if_false, hinv, if_true,
        Bool.false_eq_true]
      by_cases hemp : s.cull_rect.isEmpty
      · simp [hemp]
      · simp only [hemp, if_false, Bool.false_eq_true]
        rw [hcorners _ _ (Or.inl rfl) (Or.inl rfl),
            hcorners _ _ (Or.inr rfl) (Or.inl rfl),
            hcorners _ _ (Or.inr rfl) (Or.inr rfl),
            hcorners _ _ (Or.inl rfl) (Or.inr rfl)]
        rfl
    simp [hcov]
    decide
  · intro s content_bounds h
    unfold content_culled
    simp [h]

/-- A concrete tracker for witnesses: identity transform with the
coverage rect (50,50)-(100,100) of the scenario in the spec. -/
def demoTracker : DisplayListMatrixClipState :=
  ⟨⟨50, 50, 100, 100⟩, DlMatrixM.identity⟩

/-- A concrete simple round rect extending far beyond the demo
coverage. -/
def demoRRect : RRectQ :=
  ⟨⟨0, 0, 200, 200⟩, ⟨10, 10⟩, ⟨10, 10⟩, ⟨10, 10⟩, ⟨10, 10⟩⟩

/-- Witness for C4 at concrete inputs: clipping (0,0)-(200,200) away
(as a rect, an oval, or a round rect) from coverage (50,50)-(100,100)
empties the coverage, and an empty coverage culls draws. -/
theorem difference_clip_covering_witness :
    ((demoTracker.clipRect ⟨0, 0, 200, 200⟩ .difference false).cull_rect.isEmpty = true) ∧
    ((demoTracker.clipOval ⟨0, 0, 200, 200⟩ .difference true).cull_rect.isEmpty = true) ∧
    ((demoTracker.clipRRect demoRRect .difference false).cull_rect.isEmpty = true) ∧
    (DisplayListMatrixClipState.content_culled ⟨RectQ.zero, DlMatrixM.identity⟩
        ⟨0, 0, 10, 10⟩ = true) := by
  have T := difference_clip_covering_coverage_empties_it
  exact ⟨T.1 demoTracker ⟨0, 0, 200, 200⟩ false rfl rfl (by decide) (by decide),
         T.2.1 demoTracker ⟨0, 0, 200, 200⟩ true (by decide) rfl
           (by intro cx cy h1 h2
               rcases h1 with h1 | h1 <;> rcases h2 with h2 | h2 <;>
                 subst h1 <;> subst h2 <;>
                 norm_num [ovalInside, RectQ.containsPoint, RectQ.getCenter,
                           DlMatrixM.identity, demoTracker]),
         T.2.2.1 demoTracker demoRRect false (by decide)
           (by norm_num [RRectQ.isOval, RRectQ.isRect, RRectQ.isEmpty, RectQ.isEmpty,
                         demoRRect])
           (by decide) rfl
           (by intro cx cy h1 h2
               rcases h1 with h1 | h1 <;> rcases h2 with h2 | h2 <;>
                 subst h1 <;> subst h2 <;>
                 norm_num [rrectInside, RectQ.containsPoint, RRectQ.getSimpleRadii,
                           DlMatrixM.identity, demoTracker, demoRRect]),
         T.2.2.2 ⟨RectQ.zero, DlMatrixM.identity⟩ ⟨0, 0, 10, 10⟩ (by decide)⟩

end Flutter.DisplayListMatrixClipState

namespace Impeller

/-- A deferred GL-object operation, modelled as an identifying token;
the enclosed closure is a collaborator and has no observable effect on
the reactor state itself. A `none` argument to `AddOperation` models a
null `std::function`. -/
abbrev OperationId := Nat

/-- The observable state of `ReactorGLES`: the pending operation queue
(`ops_`), the log of operations already executed by `FlushOps`, the
registered workers (`none` for a worker whose weak pointer is dead,
`some b` for a live worker answering `b` to
`CanReactorReactOnCurrentThreadNow` on the current thread), the
validity flag, and whether `ConsolidateHandles` can create its pending
GL handles (the handle table itself is a collaborator). -/
structure ReactorState where
  ops : List OperationId
  executed : List OperationId
  workers : List (Option Bool)
  is_valid : Bool
  consolidate_ok : Bool
deriving DecidableEq, Repr

namespace ReactorState

/-- Source `ReactorGLES::CanReactOnCurrentThread`: true when some live
worker reports the current thread can react (dead-worker cleanup has no
observable effect on the queue and is elided). -/
def CanReactOnCurrentThread (s : ReactorState) : Bool :=
  s.workers.any (fun w => w.getD false)

/-- Source `ReactorGLES::HasPendingOperations`. -/
def HasPendingOperations (s : ReactorState) : Bool :=
  !s.ops.isEmpty

/-- Source `ReactorGLES::FlushOps`: swap out the queue and run every
operation (the modelled operations do not enqueue further work). -/
def FlushOps (s : ReactorState) : ReactorState :=
  { s with ops := [], executed := s.executed ++ s.ops }

/-- Source `ReactorGLES::ReactOnce`: requires validity, then
consolidates handles and flushes the operations. -/
def ReactOnce (s : ReactorState) : Bool × ReactorState :=
  if !s.is_valid then (false, s)
  else if !s.consolidate_ok then (false, s)
  else (true, s.FlushOps)

/-- Source `ReactorGLES::React`: nothing happens on a thread no worker
vouches for; otherwise pending operations are flushed (the while loop
runs once here because modelled operations never enqueue more). -/
def React (s : ReactorState) : Bool × ReactorState :=
  if !s.CanReactOnCurrentThread then (false, s)
  else if !s.HasPendingOperations then (true, s)
  else
    let (ok, s1) := s.ReactOnce
    if !ok then (false, s1) else (true, s1)

/-- Source `ReactorGLES::AddOperation`: a null operation is rejected;
otherwise the operation is appended to the queue, an opportunistic
`React` runs with its result discarded, and true is returned. -/
def AddOperation (s : ReactorState) (operation : Option OperationId) :
    Bool × ReactorState :=
  match operation with
  | none => (false, s)
  | some op =>
    let s1 := { s with ops := s.ops ++ [op] }
    (true, (React s1).2)

end ReactorState

end Impeller

namespace Impeller.ReactorState

/-- Counterexample for C9 as frozen: a null operation (a null
`std::function` is falsy) is rejected by `AddOperation` — the call
returns false and nothing is enqueued, contradicting that enqueue
succeeds for every operation passed in. -/
theorem addOperation_null_counterexample :
    AddOperation ⟨[], [], [some true], true, true⟩ none =
      (false, ⟨[], [], [some true], true, true⟩) := by
  rfl

/-- C9 (amended to non-null operations): enqueuing a non-null operation
always returns true; on a thread no registered worker vouches for, the
operation is left queued behind the existing ones and nothing executes;
on a qualified thread (with a valid reactor whose handle consolidation
succeeds) the whole pending queue, including the new operation, is
executed immediately. -/
theorem addOperation_enqueues_and_flushes (s : ReactorState) (op : OperationId) :
    (s.AddOperation (some op)).1 = true ∧
    (s.CanReactOnCurrentThread = false →
      (s.AddOperation (some op)).2 = { s with ops := s.ops ++ [op] }) ∧
    (s.CanReactOnCurrentThread = true → s.is_valid = true → s.consolidate_ok = true →
      (s.AddOperation (some op)).2.ops = [] ∧
      (s.AddOperation (some op)).2.executed = s.executed ++ s.ops ++ [op]) := by
  refine ⟨rfl, ?_, ?_⟩
  · intro hq
    simp only [AddOperation, React, CanReactOnCurrentThread] at *
    simp [hq]
  · intro hq hv hc
    simp only [AddOperation, React, CanReactOnCurrentThread, ReactOnce, FlushOps] at *
    simp [hq, hv, hc, HasPendingOperations]

/-- Witness for C9 at concrete inputs: both the unqualified-thread and
the qualified-thread outcome, at states with one pending operation. -/
theorem addOperation_witness :
    ((AddOperation ⟨[7], [], [some false, none], true, true⟩ (some 9)).1 = true ∧
      (AddOperation ⟨[7], [], [some false, none], true, true⟩ (some 9)).2 =
        ⟨[7, 9], [], [some false, none], true, true⟩) ∧
    ((AddOperation ⟨[7], [], [some true], true, true⟩ (some 9)).2.ops = [] ∧
      (AddOperation ⟨[7], [], [some true], true, true⟩ (some 9)).2.executed = [7, 9]) := by
  have h1 := addOperation_enqueues_and_flushes ⟨[7], [], [some false, none], true, true⟩ 9
  have h2 := addOperation_enqueues_and_flushes ⟨[7], [], [some true], true, true⟩ 9
  exact ⟨⟨h1.1, h1.2.1 (by decide)⟩, h2.2.2 (by decide) rfl rfl⟩

end Impeller.ReactorState

namespace Impeller

/-- A `LazyRenderingConfig` (an entity pass target plus its inline
pass context), identified by the id of its backing render target; the
deferred pass machinery itself is a collaborator. -/
structure LazyRenderingConfigM where
  target_id : Nat
deriving DecidableEq, Repr

/-- The externally determined outcomes of the GPU steps inside
`FlipBackdrop`: whether `EndPass` succeeds, which color texture
`GetTexture` yields (none on failure), and whether rendering the MSAA
backdrop entity succeeds. -/
structure FlipEnv where
  end_pass_ok : Bool
  color_texture : Option Nat
  backdrop_render_ok : Bool
deriving DecidableEq, Repr

/-- Source `FlipBackdrop` (canvas.cc): pop the current rendering
config, try to end its pass and fetch its texture; on either failure
push the config back on top and return null; on success push it back,
draw the captured texture as the new backdrop (replaying recorded clips
has no effect on the pass stack) and return the texture. The
render-pass stack is a list whose head is the top (`back()`) of the
source vector. -/
def FlipBackdrop (render_passes : List LazyRenderingConfigM) (env : FlipEnv) :
    Option Nat × List LazyRenderingConfigM :=
  match render_passes with
  | [] => (none, [])
  | rendering_config :: rest =>
    if !env.end_pass_ok then
      -- Failed to end the current render pass: push the pass back so
      -- later save layers stay balanced, and report the failure.
      (none, rendering_config :: rest)
    else
      match env.color_texture with
      | none =>
        -- Failed to fetch the color texture: same recovery.
        (none, rendering_config :: rest)
      | some input_texture =>
        let passes := rendering_config :: rest
        if !env.backdrop_render_ok then (none, passes)
        else (some input_texture, passes)

/-- C8: when `FlipBackdrop` fails to end the current render pass or to
fetch the backdrop color texture, it returns null and the render-pass
stack is left exactly as it was: the same size, with the failed pass
configuration pushed back on top rather than dropped. -/
theorem flipBackdrop_failure_keeps_stack_balanced
    (render_passes : List LazyRenderingConfigM) (env : FlipEnv)
    (hne : render_passes ≠ [])
    (hfail : env.end_pass_ok = false ∨ env.color_texture = none) :
    (FlipBackdrop render_passes env).1 = none ∧
    (FlipBackdrop render_passes env).2 = render_passes ∧
    (FlipBackdrop render_passes env).2.length = render_passes.length := by
  match render_passes, hne with
  | cfg :: rest, _ =>
    rcases hfail with h | h
    · simp [FlipBackdrop, h]
    · cases he : env.end_pass_ok
      · simp [FlipBackdrop, he]
      · simp [FlipBackdrop, he, h]

/-- A concrete two-deep pass stack for the C8 witness. -/
def demoPasses : List LazyRenderingConfigM := [⟨3⟩, ⟨0⟩]

/-- Witness for C8 at a concrete input: a texture-fetch failure on a
two-deep pass stack returns null and preserves the stack. -/
theorem flipBackdrop_failure_witness :
    (FlipBackdrop demoPasses ⟨true, none, true⟩).1 = none ∧
    (FlipBackdrop demoPasses ⟨true, none, true⟩).2 = demoPasses ∧
    (FlipBackdrop demoPasses ⟨true, none, true⟩).2.length = demoPasses.length :=
  flipBackdrop_failure_keeps_stack_balanced demoPasses ⟨true, none, true⟩
    (by decide) (Or.inr rfl)

end Impeller

namespace Impeller

/-- The impeller blend modes (`impeller/geometry/color.h`, a
collaborator of canvas.cc): the first fourteen are pipeline blends,
the rest are the advanced blends that need emulation. -/
inductive BlendModeM where
  | clear | source | destination | sourceOver | destinationOver
  | sourceIn | destinationIn | sourceOut | destinationOut
  | sourceATop | destinationATop | xor | plus | modulate
  | screen | overlay | darken | lighten | colorDodge | colorBurn
  | hardLight | softLight | difference | exclusion | multiply
  | hue | saturation | color | luminosity
deriving DecidableEq, Repr

/-- Whether a blend mode lies beyond `Entity::kLastPipelineBlendMode`
(which is `kModulate`): the comparison `blend > kLastPipelineBlendMode`
of the source. -/
def BlendModeM.isAdvanced : BlendModeM → Bool
  | .screen | .overlay | .darken | .lighten | .colorDodge | .colorBurn
  | .hardLight | .softLight | .difference | .exclusion | .multiply
  | .hue | .saturation | .color | .luminosity => true
  | _ => false

/-- `Entity::RenderingMode` as stored in a `CanvasStackEntry`. -/
inductive RenderingModeM where
  | direct
  | subpassAppend
  | subpassPrepend
deriving DecidableEq, Repr

/-- `ContentBoundsPromise` of the display-list interface. -/
inductive ContentBoundsPromiseM where
  | kUnknown
  | kContainsContents
  | kMayClipContents
deriving DecidableEq, Repr

/-- The paint fields the embedded canvas paths consult (`Paint` lives
in paint.h, a collaborator; colors other than alpha, stroke and filter
payloads have no effect on the embedded control flow). -/
structure PaintM where
  alpha : ℚ
  blend_mode : BlendModeM
  invert_colors : Bool
  has_mask_blur : Bool
  has_image_filter : Bool
  has_color_filter : Bool
deriving DecidableEq, Repr

/-- A neutral paint (defaults of the source `Paint`). -/
def PaintM.init : PaintM :=
  { alpha := 1, blend_mode := BlendModeM.sourceOver, invert_colors := false
    has_mask_blur := false, has_image_filter := false, has_color_filter := false }

/-- Modelled from the spec: `Paint::CanApplyOpacityPeephole` (paint.h
is not under src/) — the paint only varies alpha: source-over blend, no
inverted colors, no mask blur, and no image or color filter. -/
def CanApplyOpacityPeephole (paint : PaintM) : Bool :=
  decide (paint.blend_mode = BlendModeM.sourceOver) &&
  !paint.invert_colors && !paint.has_mask_blur &&
  !paint.has_image_filter && !paint.has_color_filter

/-- The entity fields the embedded dispatch path reads and writes:
blend mode, the contents opacity report `IsOpaque(transform)` (contents
are a collaborator, so the report is carried as a field), the inherited
opacity and the stamped depth. -/
structure EntityM where
  blend_mode : BlendModeM
  is_opaque : Bool
  inherited_opacity : ℚ
  clip_depth : Nat
deriving DecidableEq, Repr

/-- A `CanvasStackEntry` (canvas.h, declared for canvas.cc): one open
Save/SaveLayer scope. The transform snapshot and `did_round_out` only
feed collaborator draws and are elided. -/
structure CanvasStackEntry where
  clip_depth : Nat
  clip_height : Nat
  num_clips : Nat
  distributed_opacity : ℚ
  rendering_mode : RenderingModeM
  skipping : Bool
deriving DecidableEq, Repr

/-- The default-constructed `CanvasStackEntry{}`. -/
def CanvasStackEntry.init : CanvasStackEntry :=
  { clip_depth := 0, clip_height := 0, num_clips := 0
    distributed_opacity := 1, rendering_mode := RenderingModeM.direct
    skipping := false }

/-- A recorded `SaveLayerState{paint, coverage}`; the coverage rect
only positions the composite draw and is elided. -/
structure SaveLayerStateM where
  paint : PaintM
deriving DecidableEq, Repr

/-- Modelled from the spec: the root frame's depth ceiling is the
maximum representable depth (`Canvas::kMaxDepth` in canvas.h, not under
src/). -/
def kMaxDepth : Nat := 2 ^ 24

/-- The canvas state the claims observe: the frame stack (head is the
source's `back()`), the shared depth counter, the lazy render-pass
stack, the save-layer state stack, an allocation counter for
`CreateRenderTarget` calls, a fresh-id source for pass targets, and the
environment of `FlipBackdrop` outcomes (`flip_ok k` tells whether the
k-th flip of this canvas finds its texture) together with the
framebuffer-fetch capability. -/
structure CanvasState where
  transform_stack : List CanvasStackEntry
  current_depth : Nat
  render_passes : List LazyRenderingConfigM
  save_layer_state : List SaveLayerStateM
  allocations : Nat
  next_pass_id : Nat
  flips : Nat
  flip_ok : Nat → Bool
  supports_fbfetch : Bool

namespace CanvasState

/-- Source `Canvas::GetSaveCount`. -/
def GetSaveCount (s : CanvasState) : Nat := s.transform_stack.length

/-- Source `Canvas::IsSkipping`: the skip flag of `back()`. -/
def IsSkipping (s : CanvasState) : Bool :=
  match s.transform_stack with
  | [] => false
  | e :: _ => e.skipping

/-- The `clip_depth` of the innermost open frame. -/
def topClipDepth (s : CanvasState) : Nat :=
  match s.transform_stack with
  | [] => 0
  | e :: _ => e.clip_depth

/-- Source `Canvas::GetClipHeight`: the `clip_height` of `back()`. -/
def GetClipHeight (s : CanvasState) : Nat :=
  match s.transform_stack with
  | [] => 0
  | e :: _ => e.clip_height

/-- The `distributed_opacity` of the innermost open frame. -/
def topOpacity (s : CanvasState) : ℚ :=
  match s.transform_stack with
  | [] => 1
  | e :: _ => e.distributed_opacity

/-- Overwrite the innermost frame's `distributed_opacity` (the source's
`transform_stack_.back().distributed_opacity = a`). -/
def setTopOpacity (s : CanvasState) (a : ℚ) : CanvasState :=
  match s.transform_stack with
  | [] => s
  | e :: rest =>
    { s with transform_stack := { e with distributed_opacity := a } :: rest }

/-- Multiply the innermost frame's `distributed_opacity` (the source's
`transform_stack_.back().distributed_opacity *= a`). -/
def multTopOpacity (s : CanvasState) (a : ℚ) : CanvasState :=
  match s.transform_stack with
  | [] => s
  | e :: rest =>
    { s with transform_stack :=
        { e with distributed_opacity := e.distributed_opacity * a } :: rest }

/-- A freshly constructed canvas: `Initialize` pushes one root frame
whose ceiling is `kMaxDepth` and `SetupRenderPass` installs the root
lazy rendering config. -/
def fresh (flip_ok : Nat → Bool) (supports_fbfetch : Bool) : CanvasState :=
  { transform_stack := [{ CanvasStackEntry.init with clip_depth := kMaxDepth }]
    current_depth := 0
    render_passes := [⟨0⟩]
    save_layer_state := []
    allocations := 0
    next_pass_id := 1
    flips := 0
    flip_ok := flip_ok
    supports_fbfetch := supports_fbfetch }

/-- The environment in which every GPU flip of this canvas succeeds
(no resource failures). -/
def EnvOK (s : CanvasState) : Prop := ∀ k, s.flip_ok k = true

/-- A call of `FlipBackdrop` from within the canvas: the k-th flip
consults the environment; success yields a captured texture and (as
proved of `FlipBackdrop`) the render-pass stack is pushed back either
way, so it is preserved. -/
def canvasFlip (s : CanvasState) : Option Nat × CanvasState :=
  let ok := s.flip_ok s.flips
  let env : FlipEnv :=
    { end_pass_ok := ok, color_texture := if ok then some 0 else none
      backdrop_render_ok := true }
  let r := FlipBackdrop s.render_passes env
  (r.1, { s with render_passes := r.2, flips := s.flips + 1 })

/-- Source `Canvas::SkipUntilMatchingRestore`: push a lightweight
skip-frame that still reserves depth and balances the stack. -/
def SkipUntilMatchingRestore (s : CanvasState) (total_content_depth : Nat) :
    CanvasState :=
  { s with transform_stack :=
      { CanvasStackEntry.init with
          skipping := true
          clip_depth := s.current_depth + total_content_depth } :: s.transform_stack }

/-- Source `Canvas::Save`: under a skipping frame push a skip-frame;
otherwise push a frame inheriting the transform, the clip height and
the distributed opacity, with `clip_depth = current_depth +
total_content_depth` (asserted in debug builds not to exceed the
parent's ceiling). -/
def Save (s : CanvasState) (total_content_depth : Nat) : CanvasState :=
  if IsSkipping s then SkipUntilMatchingRestore s total_content_depth
  else
    match s.transform_stack with
    | [] => s
    | back :: rest =>
      let entry : CanvasStackEntry :=
        { clip_depth := s.current_depth + total_content_depth
          clip_height := back.clip_height
          num_clips := 0
          distributed_opacity := back.distributed_opacity
          rendering_mode := RenderingModeM.direct
          skipping := false }
      { s with transform_stack := entry :: back :: rest }

/-- Source `Canvas::ClipGeometry`: dispatch the clip entity (which
early-returns while skipping and never touches the depth counter),
then bump `clip_height` and `num_clips` of the innermost frame. -/
def ClipGeometry (s : CanvasState) : CanvasState :=
  match s.transform_stack with
  | [] => s
  | back :: rest =>
    { s with transform_stack :=
        { back with clip_height := back.clip_height + 1
                    num_clips := back.num_clips + 1 } :: rest }

/-- The opaque source-over rewrite step of
`Canvas::AddRenderEntityToCurrentPass` (canvas.cc lines 1417-1420): a
source-over blend on contents reporting opaque for the entity's
transform becomes a source blend; every other entity is untouched by
this step. -/
def applyOpaqueBlendRewrite (entity : EntityM) : EntityM :=
  if entity.blend_mode = BlendModeM.sourceOver ∧ entity.is_opaque = true then
    { entity with blend_mode := BlendModeM.source }
  else entity

/-- Source `Canvas::AddRenderEntityToCurrentPass`. Returns the state,
the entity handed to `Entity::Render` (none when the draw is skipped,
folded into the clear color, or dropped by a failed advanced-blend
flip) and the depth stamped on the entity (none when no stamp
happened). `folds` is the outcome of the background-folding test
(`IsApplyingClearColor` plus `AsBackgroundColor`, both collaborator
queries on the pass and the contents). -/
def AddRenderEntityToCurrentPass (s : CanvasState) (entity : EntityM)
    (reuse_depth : Bool) (folds : Bool) :
    CanvasState × Option EntityM × Option Nat :=
  if IsSkipping s then (s, none, none)
  else
    -- the transform rebase to the pass origin feeds collaborator draws
    let entity := { entity with inherited_opacity := topOpacity s }
    let entity := applyOpaqueBlendRewrite entity
    if folds then
      -- fold into the pass clear color and return without drawing
      (s, none, none)
    else
      let s := if reuse_depth then s
               else { s with current_depth := s.current_depth + 1 }
      let entity := { entity with clip_depth := s.current_depth }
      if entity.blend_mode.isAdvanced then
        if s.supports_fbfetch then
          -- ApplyFramebufferBlend wraps the contents and blends as source
          (s, some { entity with blend_mode := BlendModeM.source },
           some s.current_depth)
        else
          let r := canvasFlip s
          match r.1 with
          | none => (r.2, none, some s.current_depth)
          | some _ =>
            -- blend against the flipped backdrop texture, then overwrite
            (r.2, some { entity with blend_mode := BlendModeM.source },
             some s.current_depth)
      else (s, some entity, some s.current_depth)

/-- The inputs of one `Canvas::SaveLayer` call: the paint and
arguments, plus the outcomes of the collaborator computations the
source branches on — whether `GetLocalCoverageLimit` produced a rect,
whether `ComputeSaveLayerCoverage` produced a rect, and whether the
rounded and clamped subpass size is non-empty. -/
structure SaveLayerOpM where
  paint : PaintM
  has_backdrop_filter : Bool
  bounds_promise : ContentBoundsPromiseM
  total_content_depth : Nat
  can_distribute_opacity : Bool
  has_coverage_limit : Bool
  has_subpass_coverage : Bool
  subpass_size_nonempty : Bool
deriving DecidableEq, Repr

/-- Source `Canvas::SaveLayer`: skip paths push a skip-frame; the
opacity peephole folds alpha into a plain `Save`; the full path flips
the backdrop when a backdrop filter is present (returning without any
push on failure), absorbs pending distributed opacity into the layer
paint, allocates a subpass render target and pushes the new rendering
config, save-layer state and subpass frame. -/
def SaveLayer (s : CanvasState) (op : SaveLayerOpM) : CanvasState :=
  if IsSkipping s then SkipUntilMatchingRestore s op.total_content_depth
  else if op.has_coverage_limit = false then
    SkipUntilMatchingRestore s op.total_content_depth
  else if op.can_distribute_opacity = true ∧ op.has_backdrop_filter = false ∧
      CanApplyOpacityPeephole op.paint = true ∧
      op.bounds_promise ≠ ContentBoundsPromiseM.kMayClipContents then
    multTopOpacity (Save s op.total_content_depth) op.paint.alpha
  else if op.has_subpass_coverage = false then
    SkipUntilMatchingRestore s op.total_content_depth
  else if op.subpass_size_nonempty = false then
    SkipUntilMatchingRestore s op.total_content_depth
  else
    let r := if op.has_backdrop_filter then
               let f := canvasFlip s
               (f.1.isSome, f.2)
             else (true, s)
    if r.1 = false then
      -- FlipBackdrop failed: return with no frame pushed
      r.2
    else
      let s1 := r.2
      -- absorb any pending distributed opacity into the layer paint
      let paint_copy := { op.paint with alpha := op.paint.alpha * topOpacity s1 }
      let s2 := setTopOpacity s1 1
      let entry : CanvasStackEntry :=
        { clip_depth := s2.current_depth + op.total_content_depth
          clip_height := GetClipHeight s2
          num_clips := 0
          distributed_opacity := 1
          rendering_mode := RenderingModeM.subpassAppend
          skipping := false }
      { s2 with
          render_passes := ⟨s2.next_pass_id⟩ :: s2.render_passes
          next_pass_id := s2.next_pass_id + 1
          allocations := s2.allocations + 1
          save_layer_state := ⟨paint_copy⟩ :: s2.save_layer_state
          transform_stack := entry :: s2.transform_stack }

/-- Source `Canvas::Restore`: false at the root; otherwise the depth
counter jumps to the expiring frame's `clip_depth`; skip frames just
pop; subpass frames pop their rendering config and save-layer state,
stamp the composite draw at the next depth, emulate unsupported blends
by flipping the parent pass (keeping the frame and returning false on
flip failure), and pop; direct frames pop and, when they carried
clips, emit a depth-only clip-restore draw (a collaborator render). -/
def Restore (s : CanvasState) : Bool × CanvasState :=
  match s.transform_stack with
  | [] => (false, s)
  | [_] => (false, s)
  | back :: next :: rest =>
    let s1 := { s with current_depth := back.clip_depth }
    if back.skipping then
      (true, { s1 with transform_stack := next :: rest })
    else if back.rendering_mode = RenderingModeM.subpassAppend ∨
        back.rendering_mode = RenderingModeM.subpassPrepend then
      let s2 := { s1 with render_passes := s1.render_passes.tail }
      let layer_state := s2.save_layer_state.headD ⟨PaintM.init⟩
      let s3 := { s2 with save_layer_state := s2.save_layer_state.tail }
      -- the composited subpass texture draw pre-increments the depth
      let s4 := { s3 with current_depth := s3.current_depth + 1 }
      if layer_state.paint.blend_mode.isAdvanced ∧ s4.supports_fbfetch = false then
        let r := canvasFlip s4
        match r.1 with
        | none => (false, r.2)
        | some _ => (true, { r.2 with transform_stack := next :: rest })
      else
        (true, { s4 with transform_stack := next :: rest })
    else
      (true, { s1 with transform_stack := next :: rest })

end CanvasState

end Impeller

namespace Impeller

/-- `FlipBackdrop` pushes the popped rendering config back in every
path, so the render-pass stack it returns is the one it was given. -/
lemma flipBackdrop_stack (ps : List LazyRenderingConfigM) (env : FlipEnv) :
    (FlipBackdrop ps env).2 = ps := by
  cases ps with
  | nil => rfl
  | cons cfg rest =>
    unfold FlipBackdrop
    cases env.end_pass_ok <;> cases h : env.color_texture <;> simp [h] <;> split_ifs <;> rfl

/-- A successful environment makes `FlipBackdrop` return the captured
texture (the stack is preserved by `flipBackdrop_stack`). -/
lemma flipBackdrop_success (ps : List LazyRenderingConfigM) (t : Nat)
    (hne : ps ≠ []) :
    (FlipBackdrop ps ⟨true, some t, true⟩).1 = some t := by
  cases ps with
  | nil => exact absurd rfl hne
  | cons cfg rest => rfl

end Impeller

namespace Impeller.CanvasState

/-- A canvas-level flip changes only the flip counter: the render-pass
stack survives by `flipBackdrop_stack`. -/
lemma canvasFlip_fields (s : CanvasState) :
    (canvasFlip s).2.transform_stack = s.transform_stack ∧
    (canvasFlip s).2.current_depth = s.current_depth ∧
    (canvasFlip s).2.render_passes = s.render_passes ∧
    (canvasFlip s).2.save_layer_state = s.save_layer_state ∧
    (canvasFlip s).2.allocations = s.allocations ∧
    (canvasFlip s).2.flip_ok = s.flip_ok ∧
    (canvasFlip s).2.supports_fbfetch = s.supports_fbfetch := by
  unfold canvasFlip
  simp [flipBackdrop_stack]

/-- Under a successful environment a canvas-level flip yields a
texture, provided a rendering config is open. -/
lemma canvasFlip_success (s : CanvasState) (henv : s.flip_ok s.flips = true)
    (hne : s.render_passes ≠ []) :
    (canvasFlip s).1.isSome = true := by
  unfold canvasFlip
  simp only [henv, if_true]
  rw [flipBackdrop_success s.render_passes 0 hne]
  rfl

/-- The profile of a frame that survives pushes and pops unchanged:
in-place mutations of a frame only ever touch `clip_height`,
`num_clips` and `distributed_opacity`. -/
def entryKey (e : CanvasStackEntry) : Nat × Bool × RenderingModeM :=
  (e.clip_depth, e.skipping, e.rendering_mode)

/-- The frame-stack profile of a canvas. -/
def stackKeys (s : CanvasState) : List (Nat × Bool × RenderingModeM) :=
  s.transform_stack.map entryKey

/-- The number of open subpass frames, computed from the profile. -/
def countSubpassK (l : List (Nat × Bool × RenderingModeM)) : Nat :=
  (l.filter (fun k => decide (k.2.2 ≠ RenderingModeM.direct))).length

/-- The render-pass stack always holds the root config plus one config
per open subpass frame. -/
def PassOK (s : CanvasState) : Prop :=
  s.render_passes.length = 1 + countSubpassK (stackKeys s)

/-- The depth invariant of the claims: a frame is open and the shared
depth counter does not exceed its ceiling. -/
def Inv (s : CanvasState) : Prop :=
  s.transform_stack ≠ [] ∧ s.current_depth ≤ topClipDepth s

/-- What one `AddRenderEntityToCurrentPass` call does to the observable
state: the frame stack, the environment and the render-pass stack are
untouched; the depth counter either stays (skipped, folded or
depth-reusing draws, which also record no fresh stamp) or advances by
one with the new value stamped. -/
lemma addRenderEntity_spec (s : CanvasState) (entity : EntityM) (reuse folds : Bool) :
    (AddRenderEntityToCurrentPass s entity reuse folds).1.transform_stack =
      s.transform_stack ∧
    (AddRenderEntityToCurrentPass s entity reuse folds).1.flip_ok = s.flip_ok ∧
    (AddRenderEntityToCurrentPass s entity reuse folds).1.supports_fbfetch =
      s.supports_fbfetch ∧
    (AddRenderEntityToCurrentPass s entity reuse folds).1.render_passes =
      s.render_passes ∧
    (((AddRenderEntityToCurrentPass s entity reuse folds).1.current_depth =
        s.current_depth ∧
      (if reuse then ([] : List Nat)
       else (AddRenderEntityToCurrentPass s entity reuse folds).2.2.toList) = []) ∨
     ((AddRenderEntityToCurrentPass s entity reuse folds).1.current_depth =
        s.current_depth + 1 ∧
      (if reuse then ([] : List Nat)
       else (AddRenderEntityToCurrentPass s entity reuse folds).2.2.toList) =
        [s.current_depth + 1])) := by
  unfold AddRenderEntityToCurrentPass
  cases hsk : IsSkipping s with
  | true => simp [hsk]
  | false =>
    simp only [hsk, Bool.false_eq_true, if_false]
    cases folds with
    | true => simp
    | false =>
      simp only [Bool.false_eq_true, if_false]
      cases reuse with
      | true =>
        simp only [if_true]
        obtain ⟨f1, f2, f3, f4, f5, f6, f7⟩ := canvasFlip_fields s
        split_ifs with h1 h2
        · exact ⟨rfl, rfl, rfl, rfl, Or.inl ⟨rfl, by trivial⟩⟩
        · rcases hcf : (canvasFlip s).1 with _ | t
          · simp only [hcf]
            exact ⟨f1, f6, f7, f3, Or.inl ⟨f2, by trivial⟩⟩
          · simp only [hcf]
            exact ⟨f1, f6, f7, f3, Or.inl ⟨f2, by trivial⟩⟩
        · exact ⟨rfl, rfl, rfl, rfl, Or.inl ⟨rfl, by trivial⟩⟩
      | false =>
        simp only [Bool.false_eq_true, if_false]
        obtain ⟨f1, f2, f3, f4, f5, f6, f7⟩ :=
          canvasFlip_fields { s with current_depth := s.current_depth + 1 }
        split_ifs with h1 h2
        · exact ⟨rfl, rfl, rfl, rfl, Or.inr ⟨rfl, by trivial⟩⟩
        · rcases hcf : (canvasFlip { s with current_depth := s.current_depth + 1 }).1
            with _ | t
          · simp only [hcf]
            exact ⟨f1, f6, f7, f3, Or.inr ⟨f2, by trivial⟩⟩
          · simp only [hcf]
            exact ⟨f1, f6, f7, f3, Or.inr ⟨f2, by trivial⟩⟩
        · exact ⟨rfl, rfl, rfl, rfl, Or.inr ⟨rfl, by trivial⟩⟩

/-- `ClipGeometry` only bumps the innermost frame's clip counters. -/
lemma clipGeometry_spec (s : CanvasState) :
    stackKeys (ClipGeometry s) = stackKeys s ∧
    (ClipGeometry s).current_depth = s.current_depth ∧
    (ClipGeometry s).flip_ok = s.flip_ok ∧
    (ClipGeometry s).supports_fbfetch = s.supports_fbfetch ∧
    (ClipGeometry s).render_passes = s.render_passes ∧
    (ClipGeometry s).transform_stack.length = s.transform_stack.length := by
  unfold ClipGeometry
  cases h : s.transform_stack with
  | nil => simp [stackKeys, h]
  | cons back rest => simp [stackKeys, h, entryKey]

/-- `Save` pushes exactly one frame on the untouched stack: a direct
frame whose ceiling is `current_depth + n` and which is skipping
exactly when its parent is. -/
lemma save_spec (s : CanvasState) (n : Nat) (hne : s.transform_stack ≠ []) :
    (∃ e, (Save s n).transform_stack = e :: s.transform_stack ∧
      e.clip_depth = s.current_depth + n ∧
      e.rendering_mode = RenderingModeM.direct ∧
      e.skipping = IsSkipping s) ∧
    (Save s n).current_depth = s.current_depth ∧
    (Save s n).flip_ok = s.flip_ok ∧
    (Save s n).supports_fbfetch = s.supports_fbfetch ∧
    (Save s n).render_passes = s.render_passes := by
  unfold Save SkipUntilMatchingRestore
  by_cases hsk : IsSkipping s = true
  · simp only [hsk, if_true]
    exact ⟨⟨⟨s.current_depth + n, 0, 0, 1, RenderingModeM.direct, true⟩, rfl, by trivial,
            by trivial, by trivial⟩, by trivial, by trivial, by trivial, by trivial⟩
  · simp only [hsk, Bool.false_eq_true, if_false]
    cases h : s.transform_stack with
    | nil => exact absurd h hne
    | cons back rest =>
      have hsk' : IsSkipping s = false := by
        cases hb : IsSkipping s
        · rfl
        · exact absurd hb hsk
      refine ⟨⟨⟨s.current_depth + n, back.clip_height, 0, back.distributed_opacity,
                RenderingModeM.direct, false⟩, ?_, by trivial, by trivial, by trivial⟩,
              by trivial, by trivial, by trivial, by trivial⟩
      simp [h]

/-- `SkipUntilMatchingRestore` pushes one direct skip-frame reserving
the requested depth; everything else is untouched. -/
lemma skipUntil_spec (s : CanvasState) (n : Nat) :
    (SkipUntilMatchingRestore s n).transform_stack =
      ⟨s.current_depth + n, 0, 0, 1, RenderingModeM.direct, true⟩ ::
        s.transform_stack ∧
    (SkipUntilMatchingRestore s n).current_depth = s.current_depth ∧
    (SkipUntilMatchingRestore s n).flip_ok = s.flip_ok ∧
    (SkipUntilMatchingRestore s n).supports_fbfetch = s.supports_fbfetch ∧
    (SkipUntilMatchingRestore s n).render_passes = s.render_passes :=
  ⟨rfl, rfl, rfl, rfl, rfl⟩

/-- `setTopOpacity` only rewrites the innermost frame's opacity. -/
lemma setTopOpacity_spec (s : CanvasState) (a : ℚ) :
    (setTopOpacity s a).transform_stack.map entryKey =
      s.transform_stack.map entryKey ∧
    (setTopOpacity s a).current_depth = s.current_depth ∧
    (setTopOpacity s a).render_passes = s.render_passes ∧
    (setTopOpacity s a).save_layer_state = s.save_layer_state ∧
    (setTopOpacity s a).next_pass_id = s.next_pass_id ∧
    (setTopOpacity s a).allocations = s.allocations ∧
    (setTopOpacity s a).flip_ok = s.flip_ok ∧
    (setTopOpacity s a).flips = s.flips ∧
    (setTopOpacity s a).supports_fbfetch = s.supports_fbfetch := by
  unfold setTopOpacity
  cases h : s.transform_stack <;> simp [entryKey, h]

/-- What one `SaveLayer` call does when its backdrop flip (if any)
succeeds: exactly one frame is pushed, whose ceiling is
`current_depth + total_content_depth`; the frames below keep their
profile; the depth counter and the environment are untouched; and the
render-pass stack grows by one exactly when the new frame is a subpass
frame. -/
lemma saveLayer_step (s : CanvasState) (op : SaveLayerOpM)
    (hne : s.transform_stack ≠ []) (henv : s.flip_ok s.flips = true)
    (hpne : s.render_passes ≠ []) :
    ∃ e tl,
      (SaveLayer s op).transform_stack = e :: tl ∧
      tl.map entryKey = s.transform_stack.map entryKey ∧
      e.clip_depth = s.current_depth + op.total_content_depth ∧
      (SaveLayer s op).current_depth = s.current_depth ∧
      (SaveLayer s op).flip_ok = s.flip_ok ∧
      (SaveLayer s op).supports_fbfetch = s.supports_fbfetch ∧
      (SaveLayer s op).render_passes.length =
        s.render_passes.length +
          (if e.rendering_mode = RenderingModeM.direct then 0 else 1) ∧
      (e.rendering_mode = RenderingModeM.direct ∨
        (e.rendering_mode = RenderingModeM.subpassAppend ∧ e.skipping = false)) := by
  unfold SaveLayer
  by_cases h1 : IsSkipping s = true
  · rw [if_pos h1]
    exact ⟨_, s.transform_stack, (skipUntil_spec s _).1, rfl, rfl, rfl, rfl, rfl,
           by simp [SkipUntilMatchingRestore], Or.inl rfl⟩
  · rw [if_neg h1]
    by_cases h2 : op.has_coverage_limit = false
    · rw [if_pos h2]
      exact ⟨_, s.transform_stack, (skipUntil_spec s _).1, rfl, rfl, rfl, rfl, rfl,
             by simp [SkipUntilMatchingRestore], Or.inl rfl⟩
    · rw [if_neg h2]
      by_cases h3 : op.can_distribute_opacity = true ∧ op.has_backdrop_filter = false ∧
          CanApplyOpacityPeephole op.paint = true ∧
          op.bounds_promise ≠ ContentBoundsPromiseM.kMayClipContents
      · rw [if_pos h3]
        -- peephole: a plain Save then an opacity multiply on the new frame
        have hsk : IsSkipping s = false := by
          cases hb : IsSkipping s
          · rfl
          · exact absurd hb h1
        cases h : s.transform_stack with
        | nil => exact absurd h hne
        | cons back rest =>
          unfold Save multTopOpacity SkipUntilMatchingRestore
          rw [if_neg h1, h]
          refine ⟨⟨s.current_depth + op.total_content_depth, back.clip_height, 0,
                   back.distributed_opacity * op.paint.alpha, RenderingModeM.direct,
                   false⟩, back :: rest, rfl, rfl, rfl, rfl, rfl, rfl, by simp,
                  Or.inl rfl⟩
      · rw [if_neg h3]
        by_cases h4 : op.has_subpass_coverage = false
        · rw [if_pos h4]
          exact ⟨_, s.transform_stack, (skipUntil_spec s _).1, rfl, rfl, rfl, rfl, rfl,
                 by simp [SkipUntilMatchingRestore], Or.inl rfl⟩
        · rw [if_neg h4]
          by_cases h5 : op.subpass_size_nonempty = false
          · rw [if_pos h5]
            exact ⟨_, s.transform_stack, (skipUntil_spec s _).1, rfl, rfl, rfl, rfl,
                   rfl, by simp [SkipUntilMatchingRestore], Or.inl rfl⟩
          · rw [if_neg h5]
            -- the full subpass path
            cases hbd : op.has_backdrop_filter with
            | false =>
              simp only [hbd, Bool.false_eq_true, if_false, Option.isSome]
              obtain ⟨k1, k2, k3, k4, k5, k6, k7, k8, k9⟩ := setTopOpacity_spec s 1
              refine ⟨⟨(setTopOpacity s 1).current_depth + op.total_content_depth,
                       GetClipHeight (setTopOpacity s 1), 0, 1,
                       RenderingModeM.subpassAppend, false⟩,
                      (setTopOpacity s 1).transform_stack, rfl, k1, ?_, ?_, ?_, ?_, ?_,
                      Or.inr ⟨rfl, rfl⟩⟩
              · simp [k2]
              · simp [k2]
              · simp [k7]
              · simp [k9]
              · simp [k3]
            | true =>
              simp only [hbd, if_true]
              have hflip : (canvasFlip s).1.isSome = true := canvasFlip_success s henv hpne
              obtain ⟨c1, c2, c3, c4, c5, c6, c7⟩ := canvasFlip_fields s
              simp only [hflip]
              obtain ⟨k1, k2, k3, k4, k5, k6, k7, k8, k9⟩ :=
                setTopOpacity_spec (canvasFlip s).2 1
              refine ⟨⟨(setTopOpacity (canvasFlip s).2 1).current_depth +
                        op.total_content_depth,
                       GetClipHeight (setTopOpacity (canvasFlip s).2 1), 0, 1,
                       RenderingModeM.subpassAppend, false⟩,
                      (setTopOpacity (canvasFlip s).2 1).transform_stack, rfl,
                      ?_, ?_, ?_, ?_, ?_, ?_, Or.inr ⟨rfl, rfl⟩⟩
              · rw [k1, c1]
              · simp [k2, c2]
              · simp [k2, c2]
              · simp [k7, c6]
              · simp [k9, c7]
              · simp [k3, c3]

/-- What one `Restore` call does above the root when the environment is
good: it succeeds and pops exactly the innermost frame; the depth
counter lands on that frame's ceiling (plus one for the composite draw
of a subpass frame); the render-pass stack shrinks by one exactly for a
subpass frame. The `hpassne` hypothesis supplies the open parent
rendering config a subpass restore flips. -/
lemma restore_step (s : CanvasState) (back next : CanvasStackEntry)
    (rest : List CanvasStackEntry)
    (hs : s.transform_stack = back :: next :: rest)
    (henv : s.flip_ok s.flips = true)
    (hpassne : back.skipping = false →
      (back.rendering_mode = RenderingModeM.subpassAppend ∨
       back.rendering_mode = RenderingModeM.subpassPrepend) →
      s.render_passes.tail ≠ []) :
    (Restore s).1 = true ∧
    (Restore s).2.transform_stack = next :: rest ∧
    back.clip_depth ≤ (Restore s).2.current_depth ∧
    (Restore s).2.current_depth ≤ back.clip_depth + 1 ∧
    ((back.skipping = true ∨ back.rendering_mode = RenderingModeM.direct) →
      (Restore s).2.current_depth = back.clip_depth) ∧
    (Restore s).2.flip_ok = s.flip_ok ∧
    (Restore s).2.supports_fbfetch = s.supports_fbfetch ∧
    (Restore s).2.render_passes.length +
        (if back.skipping = false ∧
            (back.rendering_mode = RenderingModeM.subpassAppend ∨
             back.rendering_mode = RenderingModeM.subpassPrepend) then 1 else 0) =
      s.render_passes.length := by
  unfold Restore
  rw [hs]
  dsimp only
  by_cases hskp : back.skipping = true
  · rw [if_pos hskp]
    refine ⟨rfl, rfl, le_refl _, Nat.le_succ _, fun _ => rfl, rfl, rfl, ?_⟩
    simp [hskp]
  · rw [if_neg hskp]
    have hskpf : back.skipping = false := by
      cases hb : back.skipping
      · rfl
      · exact absurd hb hskp
    by_cases hmode : back.rendering_mode = RenderingModeM.subpassAppend ∨
        back.rendering_mode = RenderingModeM.subpassPrepend
    · rw [if_pos hmode]
      have hdir : ¬(back.rendering_mode = RenderingModeM.direct) := by
        rcases hmode with hm | hm <;> rw [hm] <;> intro hc <;> exact absurd hc (by decide)
      have htail : s.render_passes.tail ≠ [] := hpassne hskpf hmode
      have htaillen : s.render_passes.tail.length + 1 = s.render_passes.length := by
        cases hp : s.render_passes with
        | nil => rw [hp] at htail; exact absurd rfl htail
        | cons a l => simp [hp]
      have hnodir : ∀ h : back.skipping = true ∨
          back.rendering_mode = RenderingModeM.direct, False := by
        intro h
        rcases h with h | h
        · exact hskp h
        · exact hdir h
      by_cases hadv :
          (s.save_layer_state.headD ⟨PaintM.init⟩).paint.blend_mode.isAdvanced = true ∧
          s.supports_fbfetch = false
      · rw [if_pos hadv]
        split
        · rename_i heq
          exfalso
          have hok := canvasFlip_success
            ⟨back :: next :: rest, back.clip_depth + 1, s.render_passes.tail,
             s.save_layer_state.tail, s.allocations, s.next_pass_id, s.flips,
             s.flip_ok, s.supports_fbfetch⟩ henv htail
          rw [heq] at hok
          exact absurd hok (by decide)
        · rename_i t heq
          obtain ⟨c1, c2, c3, c4, c5, c6, c7⟩ := canvasFlip_fields
            ⟨back :: next :: rest, back.clip_depth + 1, s.render_passes.tail,
             s.save_layer_state.tail, s.allocations, s.next_pass_id, s.flips,
             s.flip_ok, s.supports_fbfetch⟩
          refine ⟨rfl, rfl, ?_, ?_, ?_, c6, c7, ?_⟩
          · rw [c2]; exact Nat.le_succ _
          · rw [c2]
          · intro hc; exact absurd hc hnodir
          · rw [c3]
            rw [if_pos (And.intro hskpf hmode)]
            exact htaillen
      · rw [if_neg hadv]
        refine ⟨rfl, rfl, Nat.le_succ _, le_refl _, ?_, rfl, rfl, ?_⟩
        · intro hc; exact absurd hc hnodir
        · rw [if_pos (And.intro hskpf hmode)]
          exact htaillen
    · rw [if_neg hmode]
      refine ⟨rfl, rfl, le_refl _, Nat.le_succ _, fun _ => rfl, rfl, rfl, ?_⟩
      simp [hmode]

/-- A `Restore` that reports success has popped a frame: the basis for
the termination of `RestoreToCount` (no environment assumption — a
failed subpass flip reports false instead). -/
lemma restore_true_shrinks (s : CanvasState) (s1 : CanvasState)
    (h : Restore s = (true, s1)) :
    s1.transform_stack.length < s.transform_stack.length := by
  unfold Restore at h
  cases hs : s.transform_stack with
  | nil =>
    rw [hs] at h
    dsimp only at h
    simp at h
  | cons back tl =>
    cases htl : tl with
    | nil =>
      rw [hs, htl] at h
      dsimp only at h
      simp at h
    | cons next rest =>
      rw [hs, htl] at h
      dsimp only at h
      by_cases hskp : back.skipping = true
      · rw [if_pos hskp] at h
        have h2 := congrArg Prod.snd h
        dsimp only at h2
        rw [← h2]
        simp
      · rw [if_neg hskp] at h
        by_cases hmode : back.rendering_mode = RenderingModeM.subpassAppend ∨
            back.rendering_mode = RenderingModeM.subpassPrepend
        · rw [if_pos hmode] at h
          by_cases hadv :
              (s.save_layer_state.headD ⟨PaintM.init⟩).paint.blend_mode.isAdvanced = true ∧
              s.supports_fbfetch = false
          · rw [if_pos hadv] at h
            rcases hcf : (canvasFlip
                ⟨back :: next :: rest, back.clip_depth + 1, s.render_passes.tail,
                 s.save_layer_state.tail, s.allocations, s.next_pass_id, s.flips,
                 s.flip_ok, s.supports_fbfetch⟩).1 with _ | t
            · rw [hcf] at h
              simp at h
            · rw [hcf] at h
              have h2 := congrArg Prod.snd h
              dsimp only at h2
              rw [← h2]
              simp
          · rw [if_neg hadv] at h
            have h2 := congrArg Prod.snd h
            dsimp only at h2
            rw [← h2]
            simp
        · rw [if_neg hmode] at h
          have h2 := congrArg Prod.snd h
          dsimp only at h2
          rw [← h2]
          simp

/-- Source `Canvas::RestoreToCount`: pop frames until the save count is
at most `count` or a `Restore` reports failure. -/
def RestoreToCount (s : CanvasState) (count : Nat) : CanvasState :=
  if GetSaveCount s > count then
    match hr : Restore s with
    | (true, s1) => RestoreToCount s1 count
    | (false, s1) => s1
  else s
termination_by s.transform_stack.length
decreasing_by
  exact restore_true_shrinks s s1 hr

/-- The draw/clip/save/restore programs the sequence claims range over:
`save n body rest` runs `Save n`, then `body`, then `Restore`, then
`rest`, and `layer` does the same through `SaveLayer`; every
Save/SaveLayer is matched by exactly one Restore (a balanced
sequence). -/
inductive CProg where
  | done : CProg
  | draw (entity : EntityM) (reuse_depth folds : Bool) (rest : CProg) : CProg
  | clip (rest : CProg) : CProg
  | save (n : Nat) (body : CProg) (rest : CProg) : CProg
  | layer (op : SaveLayerOpM) (body : CProg) (rest : CProg) : CProg

/-- The worst-case depth consumption of a program: one per non-reusing
draw, the reservation for a plain save scope, and the reservation plus
the composite draw for a save-layer scope. -/
def cost : CProg → Nat
  | .done => 0
  | .draw _ reuse _ rest => (if reuse then 0 else 1) + cost rest
  | .clip rest => cost rest
  | .save n _ rest => n + cost rest
  | .layer op _ rest => (op.total_content_depth + 1) + cost rest

/-- The caller-supplied depth budgets are satisfied: each scope's body
consumes no more depth than the scope reserved. -/
def Budgeted : CProg → Prop
  | .done => True
  | .draw _ _ _ rest => Budgeted rest
  | .clip rest => Budgeted rest
  | .save n body rest => cost body ≤ n ∧ Budgeted body ∧ Budgeted rest
  | .layer op body rest =>
      cost body ≤ op.total_content_depth ∧ Budgeted body ∧ Budgeted rest

/-- Run a program through the embedded canvas operations, collecting
the depths stamped on non-reusing draws and every state reached after a
primitive operation. -/
def runProg (s : CanvasState) : CProg → CanvasState × List Nat × List CanvasState
  | .done => (s, [], [])
  | .draw entity reuse folds rest =>
    let r := AddRenderEntityToCurrentPass s entity reuse folds
    let k := runProg r.1 rest
    (k.1, (if reuse then [] else r.2.2.toList) ++ k.2.1, r.1 :: k.2.2)
  | .clip rest =>
    let s1 := ClipGeometry s
    let k := runProg s1 rest
    (k.1, k.2.1, s1 :: k.2.2)
  | .save n body rest =>
    let s1 := Save s n
    let kb := runProg s1 body
    let s2 := (Restore kb.1).2
    let kr := runProg s2 rest
    (kr.1, kb.2.1 ++ kr.2.1, s1 :: (kb.2.2 ++ s2 :: kr.2.2))
  | .layer op body rest =>
    let s1 := SaveLayer s op
    let kb := runProg s1 body
    let s2 := (Restore kb.1).2
    let kr := runProg s2 rest
    (kr.1, kb.2.1 ++ kr.2.1, s1 :: (kb.2.2 ++ s2 :: kr.2.2))

/-- Equal stack profiles give equal innermost ceilings. -/
lemma topClipDepth_eq_of_keys {s t : CanvasState} (h : stackKeys s = stackKeys t) :
    topClipDepth s = topClipDepth t := by
  unfold topClipDepth
  cases hs : s.transform_stack with
  | nil =>
    cases ht : t.transform_stack with
    | nil => rfl
    | cons b m => unfold stackKeys at h; rw [hs, ht] at h; simp at h
  | cons a l =>
    cases ht : t.transform_stack with
    | nil => unfold stackKeys at h; rw [hs, ht] at h; simp at h
    | cons b m =>
      unfold stackKeys at h
      rw [hs, ht] at h
      simp only [List.map_cons, List.cons.injEq, entryKey, Prod.mk.injEq] at h
      exact h.1.1

/-- Equal stack profiles give equally-(non)empty stacks. -/
lemma ne_nil_of_keys {s t : CanvasState} (h : stackKeys s = stackKeys t)
    (hne : t.transform_stack ≠ []) : s.transform_stack ≠ [] := by
  intro hc
  unfold stackKeys at h
  rw [hc] at h
  cases ht : t.transform_stack with
  | nil => exact hne ht
  | cons b m => rw [ht] at h; simp at h

/-- Unfolding `countSubpassK` over a head key. -/
lemma countSubpassK_cons (k : Nat × Bool × RenderingModeM)
    (l : List (Nat × Bool × RenderingModeM)) :
    countSubpassK (k :: l) =
      (if k.2.2 = RenderingModeM.direct then 0 else 1) + countSubpassK l := by
  unfold countSubpassK
  by_cases hk : k.2.2 = RenderingModeM.direct
  · simp [hk, List.filter]
  · simp [hk, List.filter]
    omega

/-- The induction engine for the depth claims: a budgeted program run
from a state satisfying the depth and pass invariants in a failure-free
environment preserves the stack profile and both invariants, moves the
depth counter up by at most the program cost, stamps a strictly
increasing sequence of depths on its non-reusing draws (all within the
consumed window), and keeps the depth invariant at every intermediate
state. -/
lemma runProg_spec (p : CProg) : ∀ (s : CanvasState),
    Budgeted p → EnvOK s → Inv s → PassOK s →
    s.current_depth + cost p ≤ topClipDepth s →
    stackKeys (runProg s p).1 = stackKeys s ∧
    (runProg s p).1.flip_ok = s.flip_ok ∧
    (runProg s p).1.supports_fbfetch = s.supports_fbfetch ∧
    PassOK (runProg s p).1 ∧
    s.current_depth ≤ (runProg s p).1.current_depth ∧
    (runProg s p).1.current_depth ≤ s.current_depth + cost p ∧
    Inv (runProg s p).1 ∧
    List.Chain' (· < ·) (runProg s p).2.1 ∧
    (∀ x ∈ (runProg s p).2.1,
      s.current_depth < x ∧ x ≤ (runProg s p).1.current_depth) ∧
    (∀ t ∈ (runProg s p).2.2, Inv t) := by
  induction p with
  | done =>
    intro s hb henv hinv hpass hbudget
    simp only [runProg, cost]
    exact ⟨by trivial, by trivial, by trivial, hpass, le_refl _, by omega, hinv,
           List.chain'_nil, by intro x hx; simp at hx, by intro t ht; simp at ht⟩
  | draw entity reuse folds rest ih =>
    intro s hb henv hinv hpass hbudget
    obtain ⟨a1, a2, a3, a4, a5⟩ := addRenderEntity_spec s entity reuse folds
    obtain ⟨hne, hdep⟩ := hinv
    simp only [runProg]
    have hkeys1 : stackKeys (AddRenderEntityToCurrentPass s entity reuse folds).1 =
        stackKeys s := by unfold stackKeys; rw [a1]
    have htop1 : topClipDepth (AddRenderEntityToCurrentPass s entity reuse folds).1 =
        topClipDepth s := topClipDepth_eq_of_keys hkeys1
    have henv1 : EnvOK (AddRenderEntityToCurrentPass s entity reuse folds).1 := by
      intro k; rw [a2]; exact henv k
    have hpass1 : PassOK (AddRenderEntityToCurrentPass s entity reuse folds).1 := by
      unfold PassOK at hpass ⊢
      rw [a4, hkeys1]
      exact hpass
    have hcostr : cost rest ≤ cost (CProg.draw entity reuse folds rest) := by
      simp [cost]
    have hcostp : cost (CProg.draw entity reuse folds rest) =
        (if reuse then 0 else 1) + cost rest := rfl
    rcases a5 with ⟨h5, h5s⟩ | ⟨h5, h5s⟩
    · -- no depth consumed, no stamp
      have hinv1 : Inv (AddRenderEntityToCurrentPass s entity reuse folds).1 :=
        ⟨by rw [a1]; exact hne, by rw [htop1, h5]; exact hdep⟩
      have hbudget1 : (AddRenderEntityToCurrentPass s entity reuse folds).1.current_depth +
          cost rest ≤ topClipDepth (AddRenderEntityToCurrentPass s entity reuse folds).1 := by
        rw [htop1, h5]
        rw [hcostp] at hbudget
        omega
      obtain ⟨i1, i2, i3, i4, i5, i6, i7, i8, i9, i10⟩ :=
        ih (AddRenderEntityToCurrentPass s entity reuse folds).1 hb henv1 hinv1 hpass1 hbudget1
      refine ⟨i1.trans hkeys1, i2.trans a2, i3.trans a3, i4, ?_, ?_, i7, ?_, ?_, ?_⟩
      · rw [← h5]; exact i5
      · rw [h5] at i6
        rw [hcostp]
        omega
      · rw [h5s]; simpa using i8
      · intro x hx
        rw [h5s] at hx
        simp only [List.nil_append] at hx
        obtain ⟨hx1, hx2⟩ := i9 x hx
        exact ⟨by omega, hx2⟩
      · intro t ht
        rcases List.mem_cons.mp ht with rfl | ht
        · exact hinv1
        · exact i10 t ht
    · -- one depth consumed, one stamp
      have hre : reuse = false := by
        cases reuse
        · rfl
        · exfalso; rw [if_pos rfl] at h5s; exact List.noConfusion h5s
      subst hre
      simp only [Bool.false_eq_true, if_false] at hcostp h5s
      have hbudget0 : s.current_depth + 1 + cost rest ≤ topClipDepth s := by
        rw [hcostp] at hbudget
        omega
      have hinv1 : Inv (AddRenderEntityToCurrentPass s entity false folds).1 :=
        ⟨by rw [a1]; exact hne, by rw [htop1, h5]; omega⟩
      have hbudget1 : (AddRenderEntityToCurrentPass s entity false folds).1.current_depth +
          cost rest ≤ topClipDepth (AddRenderEntityToCurrentPass s entity false folds).1 := by
        rw [htop1, h5]
        omega
      obtain ⟨i1, i2, i3, i4, i5, i6, i7, i8, i9, i10⟩ :=
        ih (AddRenderEntityToCurrentPass s entity false folds).1 hb henv1 hinv1 hpass1 hbudget1
      refine ⟨i1.trans hkeys1, i2.trans a2, i3.trans a3, i4, ?_, ?_, i7, ?_, ?_, ?_⟩
      · rw [h5] at i5; omega
      · rw [h5] at i6
        rw [hcostp]
        omega
      · rw [h5s]
        refine List.Chain'.append (List.chain'_singleton _) i8 ?_
        intro x hx y hy
        have hx1 : x = s.current_depth + 1 := by
          simpa using List.mem_of_mem_getLast? hx
        have hy1 := i9 y (List.mem_of_mem_head? hy)
        rw [hx1]
        rw [h5] at hy1
        exact hy1.1
      · intro x hx
        rw [h5s] at hx
        rcases List.mem_append.mp hx with hx | hx
        · have hx1 : x = s.current_depth + 1 := by simpa using hx
          rw [h5] at i5
          exact ⟨by omega, by omega⟩
        · obtain ⟨hx1, hx2⟩ := i9 x hx
          rw [h5] at hx1
          exact ⟨by omega, hx2⟩
      · intro t ht
        rcases List.mem_cons.mp ht with rfl | ht
        · exact hinv1
        · exact i10 t ht
  | clip rest ih =>
    intro s hb henv hinv hpass hbudget
    obtain ⟨c1, c2, c3, c4, c5, c6⟩ := clipGeometry_spec s
    obtain ⟨hne, hdep⟩ := hinv
    simp only [runProg]
    have htop1 : topClipDepth (ClipGeometry s) = topClipDepth s :=
      topClipDepth_eq_of_keys c1
    have henv1 : EnvOK (ClipGeometry s) := by intro k; rw [c3]; exact henv k
    have hne1 : (ClipGeometry s).transform_stack ≠ [] := by
      intro hc
      have := c6
      rw [hc] at this
      cases hs : s.transform_stack with
      | nil => exact hne hs
      | cons a l => rw [hs] at this; simp at this
    have hinv1 : Inv (ClipGeometry s) := ⟨hne1, by rw [htop1, c2]; exact hdep⟩
    have hpass1 : PassOK (ClipGeometry s) := by
      unfold PassOK at hpass ⊢
      rw [c5, c1]
      exact hpass
    have hbudget1 : (ClipGeometry s).current_depth + cost rest ≤
        topClipDepth (ClipGeometry s) := by
      rw [htop1, c2]
      exact hbudget
    obtain ⟨i1, i2, i3, i4, i5, i6, i7, i8, i9, i10⟩ :=
      ih (ClipGeometry s) hb henv1 hinv1 hpass1 hbudget1
    refine ⟨i1.trans c1, i2.trans c3, i3.trans c4, i4, ?_, ?_, i7, i8, ?_, ?_⟩
    · rw [← c2]; exact i5
    · rw [c2] at i6; exact i6
    · intro x hx
      obtain ⟨hx1, hx2⟩ := i9 x hx
      rw [c2] at hx1
      exact ⟨hx1, hx2⟩
    · intro t ht
      rcases List.mem_cons.mp ht with rfl | ht
      · exact hinv1
      · exact i10 t ht
  | save n body rest ihb ihr =>
    intro s hb henv hinv hpass hbudget
    obtain ⟨hcb, hbb, hbr⟩ := hb
    obtain ⟨hne, hdep⟩ := hinv
    have hcostp : cost (CProg.save n body rest) = n + cost rest := rfl
    rw [hcostp] at hbudget
    simp only [runProg]
    obtain ⟨⟨e, hs1stack, hecd, hemode, heskip⟩, hs1cd, hs1flip, hs1fb, hs1rp⟩ :=
      save_spec s n hne
    have hs1keys : stackKeys (Save s n) = entryKey e :: stackKeys s := by
      unfold stackKeys
      rw [hs1stack]
      rfl
    have htop1 : topClipDepth (Save s n) = e.clip_depth := by
      unfold topClipDepth
      rw [hs1stack]
    have henv1 : EnvOK (Save s n) := by intro k; rw [hs1flip]; exact henv k
    have hinv1 : Inv (Save s n) := by
      refine ⟨by rw [hs1stack]; exact List.cons_ne_nil _ _, ?_⟩
      rw [htop1, hecd, hs1cd]
      omega
    have hpass1 : PassOK (Save s n) := by
      unfold PassOK at hpass ⊢
      rw [hs1rp, hs1keys, countSubpassK_cons]
      have hky : (entryKey e).2.2 = RenderingModeM.direct := hemode
      rw [hky, if_pos rfl]
      omega
    have hbudget1 : (Save s n).current_depth + cost body ≤ topClipDepth (Save s n) := by
      rw [hs1cd, htop1, hecd]
      omega
    obtain ⟨j1, j2, j3, j4, j5, j6, j7, j8, j9, j10⟩ :=
      ihb (Save s n) hbb henv1 hinv1 hpass1 hbudget1
    rw [hs1keys] at j1
    cases hkb : (runProg (Save s n) body).1.transform_stack with
    | nil =>
      exfalso
      unfold stackKeys at j1
      rw [hkb] at j1
      simp at j1
    | cons e2 tl2 =>
      unfold stackKeys at j1
      rw [hkb] at j1
      simp only [List.map_cons, List.cons.injEq] at j1
      obtain ⟨hkey2, htl2⟩ := j1
      simp only [entryKey, Prod.mk.injEq] at hkey2
      obtain ⟨hk2cd, hk2sk, hk2md⟩ := hkey2
      cases htl : tl2 with
      | nil =>
        exfalso
        rw [htl] at htl2
        cases hs0 : s.transform_stack with
        | nil => exact hne hs0
        | cons a l => rw [hs0] at htl2; simp at htl2
      | cons next rst =>
        have hkbstack : (runProg (Save s n) body).1.transform_stack =
            e2 :: next :: rst := by rw [hkb, htl]
        have henvkb : (runProg (Save s n) body).1.flip_ok
            (runProg (Save s n) body).1.flips = true := by
          rw [j2, hs1flip]; exact henv _
        have hpassne : e2.skipping = false →
            (e2.rendering_mode = RenderingModeM.subpassAppend ∨
             e2.rendering_mode = RenderingModeM.subpassPrepend) →
            (runProg (Save s n) body).1.render_passes.tail ≠ [] := by
          intro _ hm
          exfalso
          rw [hk2md, hemode] at hm
          rcases hm with hm | hm <;> exact absurd hm (by decide)
        obtain ⟨r1, r2, r3, r4, r5, r6, r7, r8⟩ :=
          restore_step (runProg (Save s n) body).1 e2 next rst hkbstack henvkb hpassne
        have hmd2 : e2.rendering_mode = RenderingModeM.direct := by
          rw [hk2md]; exact hemode
        have hs2cur : (Restore (runProg (Save s n) body).1).2.current_depth =
            s.current_depth + n := by
          rw [r5 (Or.inr hmd2), hk2cd, hecd]
        have hs2keys : stackKeys (Restore (runProg (Save s n) body).1).2 =
            stackKeys s := by
          unfold stackKeys
          rw [r2, ← htl]
          exact htl2
        have htops2 : topClipDepth (Restore (runProg (Save s n) body).1).2 =
            topClipDepth s := topClipDepth_eq_of_keys hs2keys
        have hinv2 : Inv (Restore (runProg (Save s n) body).1).2 := by
          refine ⟨by rw [r2]; exact List.cons_ne_nil _ _, ?_⟩
          rw [htops2, hs2cur]
          omega
        have henv2 : EnvOK (Restore (runProg (Save s n) body).1).2 := by
          intro k; rw [r6, j2, hs1flip]; exact henv k
        have hkbkeys : stackKeys (runProg (Save s n) body).1 =
            entryKey e2 :: stackKeys s := by
          unfold stackKeys
          rw [hkb]
          simp only [List.map_cons]
          rw [htl2]
        have hcond : ¬(e2.skipping = false ∧
            (e2.rendering_mode = RenderingModeM.subpassAppend ∨
             e2.rendering_mode = RenderingModeM.subpassPrepend)) := by
          intro hc
          rcases hc.2 with hm | hm <;> rw [hmd2] at hm <;> exact absurd hm (by decide)
        rw [if_neg hcond] at r8
        have hpass2 : PassOK (Restore (runProg (Save s n) body).1).2 := by
          unfold PassOK at j4 ⊢
          rw [hkbkeys, countSubpassK_cons] at j4
          have hproj : (entryKey e2).2.2 = e2.rendering_mode := rfl
          rw [hproj, if_pos hmd2] at j4
          rw [hs2keys]
          omega
        have hbudget2 : (Restore (runProg (Save s n) body).1).2.current_depth +
            cost rest ≤ topClipDepth (Restore (runProg (Save s n) body).1).2 := by
          rw [hs2cur, htops2]
          omega
        obtain ⟨k1, k2, k3, k4, k5, k6, k7, k8, k9, k10⟩ :=
          ihr (Restore (runProg (Save s n) body).1).2 hbr henv2 hinv2 hpass2 hbudget2
        refine ⟨k1.trans hs2keys, ?_, ?_, k4, ?_, ?_, k7, ?_, ?_, ?_⟩
        · rw [k2, r6, j2, hs1flip]
        · rw [k3, r7, j3, hs1fb]
        · rw [hs2cur] at k5
          omega
        · rw [hs2cur] at k6
          rw [hcostp]
          omega
        · refine List.Chain'.append j8 k8 ?_
          intro x hx y hy
          have hx1 := j9 x (List.mem_of_mem_getLast? hx)
          have hy1 := k9 y (List.mem_of_mem_head? hy)
          rw [hs1cd] at j6
          rw [hs2cur] at hy1
          omega
        · intro x hx
          rcases List.mem_append.mp hx with hx | hx
          · obtain ⟨hx1, hx2⟩ := j9 x hx
            rw [hs1cd] at hx1 j6
            rw [hs2cur] at k5
            exact ⟨hx1, by omega⟩
          · obtain ⟨hx1, hx2⟩ := k9 x hx
            rw [hs2cur] at hx1
            exact ⟨by omega, hx2⟩
        · intro t ht
          rcases List.mem_cons.mp ht with rfl | ht
          · exact hinv1
          · rcases List.mem_append.mp ht with ht | ht
            · exact j10 t ht
            · rcases List.mem_cons.mp ht with rfl | ht
              · exact hinv2
              · exact k10 t ht
  | layer op body rest ihb ihr =>
    intro s hb henv hinv hpass hbudget
    obtain ⟨hcb, hbb, hbr⟩ := hb
    obtain ⟨hne, hdep⟩ := hinv
    have hcostp : cost (CProg.layer op body rest) =
        (op.total_content_depth + 1) + cost rest := rfl
    rw [hcostp] at hbudget
    simp only [runProg]
    have hpne : s.render_passes ≠ [] := by
      intro hc
      unfold PassOK at hpass
      rw [hc] at hpass
      simp only [List.length_nil] at hpass
      omega
    obtain ⟨e, tl, hs1stack, htlkeys, hecd, hs1cd, hs1flip, hs1fb, hs1rp, hmodes⟩ :=
      saveLayer_step s op hne (henv _) hpne
    have hs1keys : stackKeys (SaveLayer s op) = entryKey e :: stackKeys s := by
      unfold stackKeys
      rw [hs1stack]
      simp only [List.map_cons]
      rw [htlkeys]
    have htop1 : topClipDepth (SaveLayer s op) = e.clip_depth := by
      unfold topClipDepth
      rw [hs1stack]
    have henv1 : EnvOK (SaveLayer s op) := by intro k; rw [hs1flip]; exact henv k
    have hinv1 : Inv (SaveLayer s op) := by
      refine ⟨by rw [hs1stack]; exact List.cons_ne_nil _ _, ?_⟩
      rw [htop1, hecd, hs1cd]
      omega
    have hpass1 : PassOK (SaveLayer s op) := by
      unfold PassOK at hpass ⊢
      rw [hs1rp, hs1keys, countSubpassK_cons]
      have hproj : (entryKey e).2.2 = e.rendering_mode := rfl
      rw [hproj]
      omega
    have hbudget1 : (SaveLayer s op).current_depth + cost body ≤
        topClipDepth (SaveLayer s op) := by
      rw [hs1cd, htop1, hecd]
      omega
    obtain ⟨j1, j2, j3, j4, j5, j6, j7, j8, j9, j10⟩ :=
      ihb (SaveLayer s op) hbb henv1 hinv1 hpass1 hbudget1
    rw [hs1keys] at j1
    cases hkb : (runProg (SaveLayer s op) body).1.transform_stack with
    | nil =>
      exfalso
      unfold stackKeys at j1
      rw [hkb] at j1
      simp at j1
    | cons e2 tl2 =>
      unfold stackKeys at j1
      rw [hkb] at j1
      simp only [List.map_cons, List.cons.injEq] at j1
      obtain ⟨hkey2, htl2⟩ := j1
      simp only [entryKey, Prod.mk.injEq] at hkey2
      obtain ⟨hk2cd, hk2sk, hk2md⟩ := hkey2
      cases htl : tl2 with
      | nil =>
        exfalso
        rw [htl] at htl2
        cases hs0 : s.transform_stack with
        | nil => exact hne hs0
        | cons a l => rw [hs0] at htl2; simp at htl2
      | cons next rst =>
        have hkbstack : (runProg (SaveLayer s op) body).1.transform_stack =
            e2 :: next :: rst := by rw [hkb, htl]
        have henvkb : (runProg (SaveLayer s op) body).1.flip_ok
            (runProg (SaveLayer s op) body).1.flips = true := by
          rw [j2, hs1flip]; exact henv _
        have hkbkeys : stackKeys (runProg (SaveLayer s op) body).1 =
            entryKey e2 :: stackKeys s := by
          unfold stackKeys
          rw [hkb]
          simp only [List.map_cons]
          rw [htl2]
        have hpassne : e2.skipping = false →
            (e2.rendering_mode = RenderingModeM.subpassAppend ∨
             e2.rendering_mode = RenderingModeM.subpassPrepend) →
            (runProg (SaveLayer s op) body).1.render_passes.tail ≠ [] := by
          intro _ hm
          have hj4 := j4
          unfold PassOK at hj4
          rw [hkbkeys, countSubpassK_cons] at hj4
          have hproj : (entryKey e2).2.2 = e2.rendering_mode := rfl
          rw [hproj] at hj4
          have hnd : ¬(e2.rendering_mode = RenderingModeM.direct) := by
            rcases hm with hm | hm <;> rw [hm] <;> decide
          rw [if_neg hnd] at hj4
          intro hcontra
          have hlen : (runProg (SaveLayer s op) body).1.render_passes.length ≤ 1 := by
            cases hp : (runProg (SaveLayer s op) body).1.render_passes with
            | nil => simp
            | cons a l =>
              rw [hp] at hcontra
              simp only [List.tail_cons] at hcontra
              rw [hcontra]
              simp
          omega
        obtain ⟨r1, r2, r3, r4, r5, r6, r7, r8⟩ :=
          restore_step (runProg (SaveLayer s op) body).1 e2 next rst hkbstack
            henvkb hpassne
        rw [hk2cd, hecd] at r3 r4
        have hs2keys : stackKeys (Restore (runProg (SaveLayer s op) body).1).2 =
            stackKeys s := by
          unfold stackKeys
          rw [r2, ← htl]
          exact htl2
        have htops2 : topClipDepth (Restore (runProg (SaveLayer s op) body).1).2 =
            topClipDepth s := topClipDepth_eq_of_keys hs2keys
        have hinv2 : Inv (Restore (runProg (SaveLayer s op) body).1).2 := by
          refine ⟨by rw [r2]; exact List.cons_ne_nil _ _, ?_⟩
          rw [htops2]
          omega
        have henv2 : EnvOK (Restore (runProg (SaveLayer s op) body).1).2 := by
          intro k; rw [r6, j2, hs1flip]; exact henv k
        have hpass2 : PassOK (Restore (runProg (SaveLayer s op) body).1).2 := by
          unfold PassOK at j4 ⊢
          rw [hkbkeys, countSubpassK_cons] at j4
          have hproj : (entryKey e2).2.2 = e2.rendering_mode := rfl
          rw [hproj] at j4
          rw [hs2keys]
          rcases hmodes with hmd | ⟨hmd, hsk⟩
          · have hmd2 : e2.rendering_mode = RenderingModeM.direct := by
              rw [hk2md]; exact hmd
            have hcond : ¬(e2.skipping = false ∧
                (e2.rendering_mode = RenderingModeM.subpassAppend ∨
                 e2.rendering_mode = RenderingModeM.subpassPrepend)) := by
              intro hc
              rcases hc.2 with hm | hm <;> rw [hmd2] at hm <;>
                exact absurd hm (by decide)
            rw [if_neg hcond] at r8
            rw [if_pos hmd2] at j4
            omega
          · have hmd2 : e2.rendering_mode = RenderingModeM.subpassAppend := by
              rw [hk2md]; exact hmd
            have hsk2 : e2.skipping = false := by rw [hk2sk]; exact hsk
            have hcond : e2.skipping = false ∧
                (e2.rendering_mode = RenderingModeM.subpassAppend ∨
                 e2.rendering_mode = RenderingModeM.subpassPrepend) :=
              ⟨hsk2, Or.inl hmd2⟩
            rw [if_pos hcond] at r8
            have hnd : ¬(e2.rendering_mode = RenderingModeM.direct) := by
              rw [hmd2]; decide
            rw [if_neg hnd] at j4
            omega
        have hbudget2 : (Restore (runProg (SaveLayer s op) body).1).2.current_depth +
            cost rest ≤ topClipDepth (Restore (runProg (SaveLayer s op) body).1).2 := by
          rw [htops2]
          omega
        obtain ⟨k1, k2, k3, k4, k5, k6, k7, k8, k9, k10⟩ :=
          ihr (Restore (runProg (SaveLayer s op) body).1).2 hbr henv2 hinv2
            hpass2 hbudget2
        refine ⟨k1.trans hs2keys, ?_, ?_, k4, ?_, ?_, k7, ?_, ?_, ?_⟩
        · rw [k2, r6, j2, hs1flip]
        · rw [k3, r7, j3, hs1fb]
        · omega
        · rw [hcostp]
          omega
        · refine List.Chain'.append j8 k8 ?_
          intro x hx y hy
          have hx1 := j9 x (List.mem_of_mem_getLast? hx)
          have hy1 := k9 y (List.mem_of_mem_head? hy)
          rw [hs1cd] at j6
          omega
        · intro x hx
          rcases List.mem_append.mp hx with hx | hx
          · obtain ⟨hx1, hx2⟩ := j9 x hx
            rw [hs1cd] at hx1 j6
            exact ⟨hx1, by omega⟩
          · obtain ⟨hx1, hx2⟩ := k9 x hx
            exact ⟨by omega, hx2⟩
        · intro t ht
          rcases List.mem_cons.mp ht with rfl | ht
          · exact hinv1
          · rcases List.mem_append.mp ht with ht | ht
            · exact j10 t ht
            · rcases List.mem_cons.mp ht with rfl | ht
              · exact hinv2
              · exact k10 t ht

/-- `multTopOpacity` leaves every field except the frame stack alone. -/
lemma multTopOpacity_fields (s : CanvasState) (a : ℚ) :
    (multTopOpacity s a).render_passes = s.render_passes ∧
    (multTopOpacity s a).save_layer_state = s.save_layer_state ∧
    (multTopOpacity s a).allocations = s.allocations := by
  unfold multTopOpacity
  cases h : s.transform_stack <;> simp

/-- `Save` touches only the frame stack: no rendering config,
save-layer state or allocation changes. -/
lemma save_fields (s : CanvasState) (n : Nat) :
    (Save s n).render_passes = s.render_passes ∧
    (Save s n).save_layer_state = s.save_layer_state ∧
    (Save s n).allocations = s.allocations := by
  unfold Save SkipUntilMatchingRestore
  split
  · exact ⟨rfl, rfl, rfl⟩
  · cases h : s.transform_stack <;> simp

/-- A `Restore` that reports failure has not popped a frame: the root
guards return the state as-is, and a failed emulation flip keeps the
expiring frame in place. -/
lemma restore_false_same_length (s s1 : CanvasState)
    (h : Restore s = (false, s1)) :
    s1.transform_stack.length = s.transform_stack.length := by
  unfold Restore at h
  cases hs : s.transform_stack with
  | nil =>
    rw [hs] at h
    dsimp only at h
    simp only [Prod.mk.injEq, true_and] at h
    rw [← h, hs]
  | cons back tl =>
    cases htl : tl with
    | nil =>
      rw [hs, htl] at h
      dsimp only at h
      simp only [Prod.mk.injEq, true_and] at h
      rw [← h, hs, htl]
    | cons next rest =>
      rw [hs, htl] at h
      dsimp only at h
      by_cases hskp : back.skipping = true
      · rw [if_pos hskp] at h
        simp at h
      · rw [if_neg hskp] at h
        by_cases hmode : back.rendering_mode = RenderingModeM.subpassAppend ∨
            back.rendering_mode = RenderingModeM.subpassPrepend
        · rw [if_pos hmode] at h
          by_cases hadv :
              (s.save_layer_state.headD ⟨PaintM.init⟩).paint.blend_mode.isAdvanced = true ∧
              s.supports_fbfetch = false
          · rw [if_pos hadv] at h
            rcases hcf : (canvasFlip
                ⟨back :: next :: rest, back.clip_depth + 1, s.render_passes.tail,
                 s.save_layer_state.tail, s.allocations, s.next_pass_id, s.flips,
                 s.flip_ok, s.supports_fbfetch⟩).1 with _ | t
            · rw [hcf] at h
              simp only [Prod.mk.injEq, true_and] at h
              obtain ⟨c1, c2, c3, c4, c5, c6, c7⟩ := canvasFlip_fields
                ⟨back :: next :: rest, back.clip_depth + 1, s.render_passes.tail,
                 s.save_layer_state.tail, s.allocations, s.next_pass_id, s.flips,
                 s.flip_ok, s.supports_fbfetch⟩
              rw [← h, c1]
            · rw [hcf] at h
              simp at h
          · rw [if_neg hadv] at h
            simp at h
        · rw [if_neg hmode] at h
          simp at h

/-- `RestoreToCount` never grows the frame stack: each loop iteration
either pops a frame or stops. -/
lemma restoreToCount_le (t : CanvasState) (n : Nat) :
    GetSaveCount (RestoreToCount t n) ≤ GetSaveCount t := by
  rw [RestoreToCount]
  split
  · split
    · rename_i s1 hr
      have hlt := restore_true_shrinks t s1 hr
      have ih := restoreToCount_le s1 n
      unfold GetSaveCount at ih ⊢
      omega
    · rename_i s1 hr
      have heq := restore_false_same_length t s1 hr
      unfold GetSaveCount
      omega
  · exact le_refl _
termination_by t.transform_stack.length
decreasing_by exact hlt

/-- C1: on a canvas whose caller-supplied depth budgets are satisfied
(each scope's body consumes at most the depth its Save/SaveLayer
reserved), run in an environment without GPU resource failures, the
depths stamped on the non-depth-reusing draws by
`AddRenderEntityToCurrentPass` strictly increase in call order across
the whole program, and the shared depth counter never exceeds the
`clip_depth` of the innermost open frame — at every intermediate state
and at the end. -/
theorem sibling_draw_depths_strictly_increase
    (p : CProg) (s : CanvasState) (hb : Budgeted p) (henv : EnvOK s)
    (hinv : Inv s) (hpass : PassOK s)
    (hbudget : s.current_depth + cost p ≤ topClipDepth s) :
    List.Chain' (· < ·) (runProg s p).2.1 ∧
    (∀ t ∈ (runProg s p).2.2, t.current_depth ≤ topClipDepth t) ∧
    (runProg s p).1.current_depth ≤ topClipDepth (runProg s p).1 := by
  obtain ⟨_, _, _, _, _, _, h7, h8, _, h10⟩ :=
    runProg_spec p s hb henv hinv hpass hbudget
  exact ⟨h8, fun t ht => (h10 t ht).2, h7.2⟩

/-- A demo entity: a plain source-over draw of non-opaque contents. -/
def demoEntity : EntityM :=
  { blend_mode := BlendModeM.sourceOver, is_opaque := false
    inherited_opacity := 1, clip_depth := 0 }

/-- A demo canvas: freshly initialized, every flip succeeds,
framebuffer fetch available. -/
def demoCanvas : CanvasState := fresh (fun _ => true) true

/-- A demo program: a draw, then a save scope with one draw reserving
depth 2, then a sibling draw. -/
def demoProg : CProg :=
  CProg.draw demoEntity false false
    (CProg.save 2 (CProg.draw demoEntity false false CProg.done)
      (CProg.draw demoEntity false false CProg.done))

/-- C1, witnessed: the demo program on the fresh canvas satisfies every
hypothesis and its stamped depths strictly increase within the depth
ceilings. -/
theorem sibling_draw_depths_witness :
    Budgeted demoProg ∧ EnvOK demoCanvas ∧ Inv demoCanvas ∧ PassOK demoCanvas ∧
    demoCanvas.current_depth + cost demoProg ≤ topClipDepth demoCanvas ∧
    (List.Chain' (· < ·) (runProg demoCanvas demoProg).2.1 ∧
     (∀ t ∈ (runProg demoCanvas demoProg).2.2,
       t.current_depth ≤ topClipDepth t) ∧
     (runProg demoCanvas demoProg).1.current_depth ≤
       topClipDepth (runProg demoCanvas demoProg).1) :=
  ⟨⟨by decide, trivial, trivial⟩, fun _ => rfl, ⟨by decide, by decide⟩, rfl,
   by decide,
   sibling_draw_depths_strictly_increase demoProg demoCanvas
     ⟨by decide, trivial, trivial⟩ (fun _ => rfl) ⟨by decide, by decide⟩ rfl
     (by decide)⟩

/-- C2: a balanced Save/SaveLayer/Restore sequence (a budgeted program
run without GPU failures) leaves `GetSaveCount` unchanged; moreover a
single `Save` (any reservation) and a single `SaveLayer` (any
arguments) each grow the count by exactly one, and a single `Restore`
above the root succeeds and shrinks it by exactly one. -/
theorem save_count_balanced (p : CProg) (s : CanvasState)
    (hb : Budgeted p) (henv : EnvOK s) (hinv : Inv s) (hpass : PassOK s)
    (hbudget : s.current_depth + cost p ≤ topClipDepth s) :
    GetSaveCount (runProg s p).1 = GetSaveCount s ∧
    (∀ n, GetSaveCount (Save s n) = GetSaveCount s + 1) ∧
    (∀ op, GetSaveCount (SaveLayer s op) = GetSaveCount s + 1) ∧
    (∀ back next rst, s.transform_stack = back :: next :: rst →
      (Restore s).1 = true ∧
      GetSaveCount (Restore s).2 + 1 = GetSaveCount s) := by
  obtain ⟨h1, _, _, _, _, _, _, _, _, _⟩ :=
    runProg_spec p s hb henv hinv hpass hbudget
  obtain ⟨hne, hdep⟩ := hinv
  refine ⟨?_, ?_, ?_, ?_⟩
  · have h := congrArg List.length h1
    unfold stackKeys at h
    simp only [List.length_map] at h
    exact h
  · intro n
    obtain ⟨⟨e, hstk, -, -, -⟩, -, -, -, -⟩ := save_spec s n hne
    unfold GetSaveCount
    rw [hstk]
    simp
  · intro op
    have hpne : s.render_passes ≠ [] := by
      intro hc
      unfold PassOK at hpass
      rw [hc] at hpass
      simp only [List.length_nil] at hpass
      omega
    obtain ⟨e, tl, hstk, htlk, -, -, -, -, -, -⟩ :=
      saveLayer_step s op hne (henv _) hpne
    have hlen : tl.length = s.transform_stack.length := by
      have h := congrArg List.length htlk
      simpa using h
    unfold GetSaveCount
    rw [hstk]
    simp [hlen]
  · intro back next rst hs
    have hpassne : back.skipping = false →
        (back.rendering_mode = RenderingModeM.subpassAppend ∨
         back.rendering_mode = RenderingModeM.subpassPrepend) →
        s.render_passes.tail ≠ [] := by
      intro _ hm
      unfold PassOK at hpass
      have hk : stackKeys s = entryKey back :: (next :: rst).map entryKey := by
        unfold stackKeys
        rw [hs]
        rfl
      rw [hk, countSubpassK_cons] at hpass
      have hproj : (entryKey back).2.2 = back.rendering_mode := rfl
      rw [hproj] at hpass
      have hnd : ¬(back.rendering_mode = RenderingModeM.direct) := by
        rcases hm with hm | hm <;> rw [hm] <;> decide
      rw [if_neg hnd] at hpass
      intro hcontra
      have hlen : s.render_passes.length ≤ 1 := by
        cases hp : s.render_passes with
        | nil => simp
        | cons a l =>
          rw [hp] at hcontra
          simp only [List.tail_cons] at hcontra
          rw [hcontra]
          simp
      omega
    obtain ⟨r1, r2, -, -, -, -, -, -⟩ :=
      restore_step s back next rst hs (henv _) hpassne
    refine ⟨r1, ?_⟩
    unfold GetSaveCount
    rw [r2, hs]
    simp

/-- A demo SaveLayer call: default paint, no backdrop, coverage
present, a non-empty subpass of depth 1 (takes the full subpass
path). -/
def demoLayerOp : SaveLayerOpM :=
  { paint := PaintM.init, has_backdrop_filter := false
    bounds_promise := ContentBoundsPromiseM.kContainsContents
    total_content_depth := 1, can_distribute_opacity := false
    has_coverage_limit := true, has_subpass_coverage := true
    subpass_size_nonempty := true }

/-- A demo balanced program: one save-layer scope with an empty body. -/
def demoLayerProg : CProg := CProg.layer demoLayerOp CProg.done CProg.done

/-- C2, witnessed: a balanced save-layer scope on the fresh canvas
satisfies every hypothesis and the save count returns to its starting
value, with the per-call increments as stated. -/
theorem save_count_balanced_witness :
    Budgeted demoLayerProg ∧ EnvOK demoCanvas ∧ Inv demoCanvas ∧
    PassOK demoCanvas ∧
    demoCanvas.current_depth + cost demoLayerProg ≤ topClipDepth demoCanvas ∧
    (GetSaveCount (runProg demoCanvas demoLayerProg).1 =
       GetSaveCount demoCanvas ∧
     (∀ n, GetSaveCount (Save demoCanvas n) = GetSaveCount demoCanvas + 1) ∧
     (∀ op, GetSaveCount (SaveLayer demoCanvas op) =
       GetSaveCount demoCanvas + 1) ∧
     (∀ back next rst, demoCanvas.transform_stack = back :: next :: rst →
       (Restore demoCanvas).1 = true ∧
       GetSaveCount (Restore demoCanvas).2 + 1 = GetSaveCount demoCanvas)) :=
  ⟨⟨by decide, trivial, trivial⟩, fun _ => rfl, ⟨by decide, by decide⟩, rfl,
   by decide,
   save_count_balanced demoLayerProg demoCanvas
     ⟨by decide, trivial, trivial⟩ (fun _ => rfl) ⟨by decide, by decide⟩ rfl
     (by decide)⟩

/-- C3: with `can_distribute_opacity`, no backdrop filter, an
alpha-only paint and a bounds promise other than `kMayClipContents` (on
a non-skipping canvas with a coverage limit), `SaveLayer` is exactly a
plain `Save` of the layer's depth reservation followed by multiplying
the new innermost frame's `distributed_opacity` by the paint alpha: no
subpass render target is allocated and the render-pass and
save-layer-state stacks are untouched. -/
theorem saveLayer_opacity_peephole (s : CanvasState) (op : SaveLayerOpM)
    (hsk : IsSkipping s = false)
    (hcl : op.has_coverage_limit = true)
    (hcd : op.can_distribute_opacity = true)
    (hbd : op.has_backdrop_filter = false)
    (hpe : CanApplyOpacityPeephole op.paint = true)
    (hbp : op.bounds_promise ≠ ContentBoundsPromiseM.kMayClipContents) :
    SaveLayer s op =
      multTopOpacity (Save s op.total_content_depth) op.paint.alpha ∧
    (SaveLayer s op).render_passes = s.render_passes ∧
    (SaveLayer s op).save_layer_state = s.save_layer_state ∧
    (SaveLayer s op).allocations = s.allocations := by
  have h1 : ¬(IsSkipping s = true) := by rw [hsk]; decide
  have h2 : ¬(op.has_coverage_limit = false) := by rw [hcl]; decide
  unfold SaveLayer
  rw [if_neg h1, if_neg h2, if_pos ⟨hcd, hbd, hpe, hbp⟩]
  refine ⟨rfl, ?_, ?_, ?_⟩
  · rw [(multTopOpacity_fields _ _).1, (save_fields _ _).1]
  · rw [(multTopOpacity_fields _ _).2.1, (save_fields _ _).2.1]
  · rw [(multTopOpacity_fields _ _).2.2, (save_fields _ _).2.2]

/-- A demo peephole SaveLayer call: default (alpha-only) paint, opacity
distributable, no backdrop filter, contents promised inside bounds. -/
def demoPeepholeOp : SaveLayerOpM :=
  { paint := PaintM.init, has_backdrop_filter := false
    bounds_promise := ContentBoundsPromiseM.kContainsContents
    total_content_depth := 1, can_distribute_opacity := true
    has_coverage_limit := true, has_subpass_coverage := true
    subpass_size_nonempty := true }

/-- C3, witnessed: the demo peephole call on the fresh canvas meets
every guard and reduces to Save-plus-opacity-multiply with no pass or
state allocation. -/
theorem saveLayer_opacity_peephole_witness :
    IsSkipping demoCanvas = false ∧
    demoPeepholeOp.has_coverage_limit = true ∧
    demoPeepholeOp.can_distribute_opacity = true ∧
    demoPeepholeOp.has_backdrop_filter = false ∧
    CanApplyOpacityPeephole demoPeepholeOp.paint = true ∧
    demoPeepholeOp.bounds_promise ≠ ContentBoundsPromiseM.kMayClipContents ∧
    (SaveLayer demoCanvas demoPeepholeOp =
       multTopOpacity (Save demoCanvas demoPeepholeOp.total_content_depth)
         demoPeepholeOp.paint.alpha ∧
     (SaveLayer demoCanvas demoPeepholeOp).render_passes =
       demoCanvas.render_passes ∧
     (SaveLayer demoCanvas demoPeepholeOp).save_layer_state =
       demoCanvas.save_layer_state ∧
     (SaveLayer demoCanvas demoPeepholeOp).allocations =
       demoCanvas.allocations) :=
  ⟨rfl, rfl, rfl, rfl, rfl, by decide,
   saveLayer_opacity_peephole demoCanvas demoPeepholeOp rfl rfl rfl rfl rfl
     (by decide)⟩

/-- C7: in `AddRenderEntityToCurrentPass`, a non-skipped, non-folded
entity with a source-over blend whose contents report opaque is
submitted with its blend mode rewritten to `source`; the rewrite step
leaves every entity with any other blend mode, or non-opaque contents,
untouched. -/
theorem opaque_source_over_rewrite (s : CanvasState) (entity : EntityM)
    (reuse folds : Bool)
    (hsk : IsSkipping s = false) (hf : folds = false)
    (hso : entity.blend_mode = BlendModeM.sourceOver)
    (hop : entity.is_opaque = true) :
    (∃ e, (AddRenderEntityToCurrentPass s entity reuse folds).2.1 = some e ∧
      e.blend_mode = BlendModeM.source) ∧
    (∀ e2 : EntityM,
      e2.blend_mode ≠ BlendModeM.sourceOver ∨ e2.is_opaque = false →
      applyOpaqueBlendRewrite e2 = e2) := by
  constructor
  · subst hf
    unfold AddRenderEntityToCurrentPass
    rw [hsk]
    simp only [Bool.false_eq_true, if_false]
    have hrw : applyOpaqueBlendRewrite
        { entity with inherited_opacity := topOpacity s } =
        { entity with inherited_opacity := topOpacity s
                      blend_mode := BlendModeM.source } := by
      unfold applyOpaqueBlendRewrite
      rw [if_pos ⟨hso, hop⟩]
    rw [hrw]
    cases reuse
    · simp only [Bool.false_eq_true, if_false]
      exact ⟨_, rfl, rfl⟩
    · simp only [if_true]
      exact ⟨_, rfl, rfl⟩
  · intro e2 h2
    have hneg : ¬(e2.blend_mode = BlendModeM.sourceOver ∧ e2.is_opaque = true) := by
      intro hc
      rcases h2 with h2 | h2
      · exact h2 hc.1
      · rw [h2] at hc
        exact absurd hc.2 (by decide)
    unfold applyOpaqueBlendRewrite
    rw [if_neg hneg]

/-- A demo entity with opaque contents under a source-over blend. -/
def demoOpaqueEntity : EntityM :=
  { blend_mode := BlendModeM.sourceOver, is_opaque := true
    inherited_opacity := 1, clip_depth := 0 }

/-- C7, witnessed: submitting the opaque source-over demo entity on the
fresh canvas hands the renderer an entity whose blend mode is
`source`. -/
theorem opaque_source_over_rewrite_witness :
    IsSkipping demoCanvas = false ∧
    demoOpaqueEntity.blend_mode = BlendModeM.sourceOver ∧
    demoOpaqueEntity.is_opaque = true ∧
    ((∃ e, (AddRenderEntityToCurrentPass demoCanvas demoOpaqueEntity
        false false).2.1 = some e ∧
      e.blend_mode = BlendModeM.source) ∧
     (∀ e2 : EntityM,
       e2.blend_mode ≠ BlendModeM.sourceOver ∨ e2.is_opaque = false →
       applyOpaqueBlendRewrite e2 = e2)) :=
  ⟨rfl, rfl, rfl,
   opaque_source_over_rewrite demoCanvas demoOpaqueEntity false false
     rfl rfl rfl rfl⟩

/-- C10, counterexample: on a fresh canvas (only the root frame open,
save count 1) `RestoreToCount 3` cannot raise the count to
`max 3 1 = 3` — it returns the canvas unchanged, so the claimed final
count `max(n, 1)` is wrong whenever `n` exceeds the current count. -/
theorem restoreToCount_counterexample :
    GetSaveCount (RestoreToCount (fresh (fun _ => true) true) 3) ≠
      Nat.max 3 1 := by
  have h : RestoreToCount (fresh (fun _ => true) true) 3 =
      fresh (fun _ => true) true := by
    rw [RestoreToCount]
    simp [GetSaveCount, fresh]
  rw [h]
  decide

/-- C10 (amended): `Restore` with only the root frame open returns
`false` and leaves the canvas untouched, so `RestoreToCount`
terminates; but the loop only ever pops: on a root-only canvas it
returns the canvas unchanged for every target, any canvas is returned
unchanged when the target is at least the current count, and the final
save count never exceeds the starting one (it is `min`-bounded, not
`max n 1`). -/
theorem restore_root_noop_restoreToCount (s : CanvasState)
    (hroot : GetSaveCount s = 1) :
    Restore s = (false, s) ∧
    (∀ n, RestoreToCount s n = s) ∧
    (∀ t : CanvasState, ∀ n, GetSaveCount t ≤ n → RestoreToCount t n = t) ∧
    (∀ t : CanvasState, ∀ n,
      GetSaveCount (RestoreToCount t n) ≤ GetSaveCount t) := by
  have hfalse : Restore s = (false, s) := by
    unfold GetSaveCount at hroot
    cases hs : s.transform_stack with
    | nil =>
      rw [hs] at hroot
      simp at hroot
    | cons a l =>
      cases hl : l with
      | nil =>
        unfold Restore
        rw [hs, hl]
      | cons b m =>
        rw [hs, hl] at hroot
        simp only [List.length_cons] at hroot
        omega
  refine ⟨hfalse, ?_, ?_, ?_⟩
  · intro n
    rw [RestoreToCount]
    by_cases hn : GetSaveCount s > n
    · rw [if_pos hn]
      split
      · rename_i s1 hr
        rw [hfalse] at hr
        simp at hr
      · rename_i s1 hr
        rw [hfalse] at hr
        exact (congrArg Prod.snd hr).symm
    · rw [if_neg hn]
  · intro t n hle
    have hn2 : ¬(GetSaveCount t > n) := by omega
    rw [RestoreToCount]
    rw [if_neg hn2]
  · intro t n
    exact restoreToCount_le t n

/-- C10, witnessed: the fresh canvas has save count 1; its root
`Restore` fails in place and `RestoreToCount` never raises the
count. -/
theorem restore_root_noop_witness :
    GetSaveCount demoCanvas = 1 ∧
    (Restore demoCanvas = (false, demoCanvas) ∧
     (∀ n, RestoreToCount demoCanvas n = demoCanvas) ∧
     (∀ t : CanvasState, ∀ n, GetSaveCount t ≤ n → RestoreToCount t n = t) ∧
     (∀ t : CanvasState, ∀ n,
       GetSaveCount (RestoreToCount t n) ≤ GetSaveCount t)) :=
  ⟨rfl, restore_root_noop_restoreToCount demoCanvas rfl⟩

end Impeller.CanvasState
